import Mathlib

/-!
# golymer: binding Go structs to browser custom elements

A shallow embedding of `golymer.go` and the properties of its registration
engine (`Define`, `testConstructorFunction`, `getStructFields`), of the
synthesized accessors, of `Element.AttributeChangedCallback` and of
`Element.scanElement`.

Conventions of the embedding.

* A Go call that can panic returns `Except Panic α`; a Go `error` result is an
  `Option DefineError` (`none` is `nil`).
* `reflect.Type` is a finite description of a Go type; an `interface{}` value is
  represented by its dynamic type, the only thing the registration code looks at.
* The browser is an explicit `Host` state: the global namespace, the
  custom-element registry and the log of every call made through `js.Global`.
  Every call can end in a JavaScript exception, which surfaces in Go as a panic.
  Whether the host throws on a call is the browser's decision and a parameter,
  `throws`; `browserThrows` is the instance used on examples.  What follows from
  the objects `Define` itself creates is concrete: an accessor defined twice on
  the fresh prototype, and a callback slot that a field accessor occupies.
* The conversion of a value to a DOM string by `setAttribute` is the host's and
  a parameter, `toDOMString`; `domString` is the instance used on examples.
* `camelCaseToKebab` and `kebabToCamelCase` are called by `golymer.go` but defined
  elsewhere in the package, and `strings.Title` belongs to the Go library: they
  are parameters of the embedding.  `specCamelCaseToKebab`,
  `specKebabToCamelCase` and `asciiTitle` are concrete instances used to
  evaluate the embedding on examples.
-/

set_option autoImplicit false

namespace Golymer

/-! ## Go run time -/

/-- Run-time faults of the Go program (a panic unwinds the call). -/
inductive Panic
  /-- `reflect: FieldByName of non-struct type`. -/
  | fieldByNameOfNonStruct
  /-- `reflect: NumField of non-struct type`. -/
  | numFieldOfNonStruct
  /-- `reflect: Field index out of bounds`. -/
  | fieldIndexOutOfBounds
  /-- `reflect: NumOut of non-func type`. -/
  | numOutOfNonFunc
  /-- `reflect: Out of non-func type`, or an index past the results. -/
  | outOfNonFunc
  /-- `reflect: Elem of invalid type`. -/
  | elemOfInvalidType
  /-- A method call on the nil `reflect.Type` that `reflect.TypeOf(nil)` returns. -/
  | nilTypeDereference
  /-- `assignment to entry in nil map`. -/
  | nilMapAssignment
  /-- A JavaScript exception thrown by the host, surfacing as a `*js.Error` panic. -/
  | jsError (name : String)
  /-- A JavaScript exception raised inside an accessor that line 181 installed,
  run on an object no element is linked to (a `TypeError`, or the browser's
  recursion-limit error when a field is named `_customElement`). -/
  | jsAccessorError
  deriving DecidableEq, Repr

/-- The five errors `testConstructorFunction` creates with `fmt.Errorf`, one per check. -/
inductive DefineError
  /-- Provided f parameter is not a function. -/
  | notAFunction
  /-- Provided function does not have one result value. -/
  | notOneResult
  /-- Provided function does not return a pointer. -/
  | notAPointer
  /-- Provided function does not return a struct that has embedded golymer.Element struct. -/
  | noEmbeddedElement
  /-- Name of the struct type MUST have two words in camel case. -/
  | nameNotTwoWords
  deriving DecidableEq, Repr

/-! ## Reflection -/

/-- The kinds of `reflect.Kind`. -/
inductive Kind
  | Invalid | Bool | Int | Int8 | Int16 | Int32 | Int64
  | Uint | Uint8 | Uint16 | Uint32 | Uint64 | Uintptr
  | Float32 | Float64 | Complex64 | Complex128
  | Array | Chan | Func | Interface | Map | Ptr | Slice | String | Struct | UnsafePointer
  deriving DecidableEq, Repr

/-- The kinds of the types whose inner structure the program never inspects:
every kind of a Go type except `Func`, `Ptr` and `Struct`. -/
inductive OtherKind
  | Bool | Int | Int8 | Int16 | Int32 | Int64
  | Uint | Uint8 | Uint16 | Uint32 | Uint64 | Uintptr
  | Float32 | Float64 | Complex64 | Complex128
  | Array | Chan | Interface | Map | Slice | String | UnsafePointer
  deriving DecidableEq, Repr

def OtherKind.toKind : OtherKind → Kind
  | .Bool => .Bool | .Int => .Int | .Int8 => .Int8 | .Int16 => .Int16
  | .Int32 => .Int32 | .Int64 => .Int64
  | .Uint => .Uint | .Uint8 => .Uint8 | .Uint16 => .Uint16 | .Uint32 => .Uint32
  | .Uint64 => .Uint64 | .Uintptr => .Uintptr
  | .Float32 => .Float32 | .Float64 => .Float64
  | .Complex64 => .Complex64 | .Complex128 => .Complex128
  | .Array => .Array | .Chan => .Chan | .Interface => .Interface | .Map => .Map
  | .Slice => .Slice | .String => .String | .UnsafePointer => .UnsafePointer

mutual
/-- A `reflect.Type`.  `name` is what `Name()` returns: the empty string for an
unnamed type.  A struct type lists its own fields in declaration order;
`promoted` is the answer of the library search through the embedded structs
for a name that no field of the struct itself carries. -/
inductive RType
  | other (kind : OtherKind) (name : String)
  | ptr (name : String) (elem : RType)
  | func (name : String) (ins : List RType) (outs : List RType)
  | struct (name : String) (pkgPath : String) (fields : List StructField)
      (promoted : String → Option StructField)
/-- A `reflect.StructField`: `PkgPath` is empty exactly for an exported field,
`Anonymous` marks an embedded field. -/
inductive StructField
  | mk (Name : String) (PkgPath : String) (Typ : RType) (Anonymous : Bool)
end

def StructField.Name : StructField → String
  | .mk n _ _ _ => n

def StructField.PkgPath : StructField → String
  | .mk _ p _ _ => p

def StructField.Typ : StructField → RType
  | .mk _ _ t _ => t

def StructField.Anonymous : StructField → Bool
  | .mk _ _ _ a => a

def RType.Kind : RType → Kind
  | .other k _ => k.toKind
  | .ptr _ _ => .Ptr
  | .func _ _ _ => .Func
  | .struct _ _ _ _ => .Struct

def RType.Name : RType → String
  | .other _ n => n
  | .ptr n _ => n
  | .func n _ _ => n
  | .struct n _ _ _ => n

/-- Package path of a struct type (the embedding records it for struct types only). -/
def RType.PkgPath : RType → String
  | .struct _ p _ _ => p
  | _ => ""

def RType.NumOut : RType → Except Panic Nat
  | .func _ _ outs => .ok outs.length
  | _ => .error .numOutOfNonFunc

def RType.Out : RType → Nat → Except Panic RType
  | .func _ _ outs, i =>
    match outs.get? i with
    | some t => .ok t
    | none => .error .outOfNonFunc
  | _, _ => .error .outOfNonFunc

/-- Only the program path behind a `Kind() == reflect.Ptr` test calls `Elem`. -/
def RType.Elem : RType → Except Panic RType
  | .ptr _ elem => .ok elem
  | _ => .error .elemOfInvalidType

def RType.NumField : RType → Except Panic Nat
  | .struct _ _ fields _ => .ok fields.length
  | _ => .error .numFieldOfNonStruct

def RType.Field : RType → Nat → Except Panic StructField
  | .struct _ _ fields _, i =>
    match fields.get? i with
    | some fld => .ok fld
    | none => .error .fieldIndexOutOfBounds
  | _, _ => .error .numFieldOfNonStruct

/-- `Type.FieldByName`: panics on a type that is not a struct; returns the
struct's own field of that name when there is one; without embedded fields
reports absence; otherwise gives the result of the search through the embedded
structs. -/
def RType.FieldByName : RType → String → Except Panic (Option StructField)
  | .struct _ _ fields promoted, name =>
    match fields.find? (fun fld => fld.Name == name) with
    | some fld => .ok (some fld)
    | none => if fields.any (fun fld => fld.Anonymous) then .ok (promoted name) else .ok none
  | _, _ => .error .fieldByNameOfNonStruct

/-- An `interface{}` value, represented by its dynamic type; `none` is the nil interface. -/
abbrev Iface := Option RType

/-- `reflect.ValueOf(f).Kind()`: the zero Value of a nil interface has kind `Invalid`. -/
def reflect.ValueOf.Kind (f : Iface) : Kind :=
  match f with
  | none => .Invalid
  | some t => t.Kind

/-- `reflect.TypeOf(f)`; calling a method on the nil Type of a nil interface panics. -/
def reflect.TypeOf (f : Iface) : Except Panic RType :=
  match f with
  | none => .error .nilTypeDereference
  | some t => .ok t

/-! ## Strings -/

/-- `beginsWith p l`: whether the list `l` starts with the list `p`. -/
def beginsWith : List Char → List Char → Bool
  | [], _ => true
  | _ :: _, [] => false
  | p :: ps, c :: cs => p == c && beginsWith ps cs

/-- Scan for `strings.Index`, `off` being the byte offset of the remaining text. -/
def strings.indexFrom (substr : List Char) : List Char → Nat → Int
  | [], off => if substr.isEmpty then (off : Int) else -1
  | c :: cs, off =>
    if beginsWith substr (c :: cs) then (off : Int)
    else strings.indexFrom substr cs (off + c.utf8Size)

/-- `strings.Index(s, substr)`: byte index of the first instance of `substr` in `s`, or -1. -/
def strings.Index (s substr : String) : Int :=
  strings.indexFrom substr.data s.data 0

/-! ## testConstructorFunction and getStructFields -/

section Registration

variable (camelCaseToKebab : String → String)

/-- Lines 79–96: tests that it is a function with no attributes and one pointer result. -/
def testConstructorFunction (f : Iface) : Except Panic (Option DefineError) :=
  if reflect.ValueOf.Kind f ≠ .Func then .ok (some .notAFunction)
  else
    match reflect.TypeOf f with
    | .error p => .error p
    | .ok t =>
      match t.NumOut with
      | .error p => .error p
      | .ok numOut =>
        if numOut ≠ 1 then .ok (some .notOneResult)
        else
          match t.Out 0 with
          | .error p => .error p
          | .ok out =>
            if out.Kind ≠ .Ptr then .ok (some .notAPointer)
            else
              match out.Elem with
              | .error p => .error p
              | .ok elem =>
                match elem.FieldByName "Element" with
                | .error p => .error p
                | .ok none => .ok (some .noEmbeddedElement)
                | .ok (some elemStruct) =>
                  if elemStruct.Typ.Name ≠ "Element" then .ok (some .noEmbeddedElement)
                  else if strings.Index (camelCaseToKebab elem.Name) "-" = -1 then
                    .ok (some .nameNotTwoWords)
                  else .ok none

/-- The loop of `getStructFields`: `todo` iterations remain, `i` is the loop index. -/
def getStructFields.loop (customElementType : RType) :
    Nat → Nat → List StructField → Except Panic (List StructField)
  | 0, _, customElementFields => .ok customElementFields
  | todo + 1, i, customElementFields =>
    match customElementType.Field i with
    | .error p => .error p
    | .ok field => getStructFields.loop customElementType todo (i + 1) (customElementFields ++ [field])

/-- Lines 98–105: returns fields of the provided struct. -/
def getStructFields (customElementType : RType) : Except Panic (List StructField) :=
  match customElementType.NumField with
  | .error p => .error p
  | .ok numField => getStructFields.loop customElementType numField 0 []

/-- The expression `reflect.TypeOf(f).Out(0).Elem()` of lines 146 and 164. -/
def resultElemType (f : Iface) : Except Panic RType :=
  match reflect.TypeOf f with
  | .error p => .error p
  | .ok t =>
    match t.Out 0 with
    | .error p => .error p
    | .ok out => out.Elem

end Registration

/-! ## JavaScript values and the host -/

/-- The Go functions that `Define` and `setPrototypeCallbacks` hand to
`js.MakeFunc`, each identified by where it is written and what it captures. -/
inductive Closure
  /-- Lines 148–157, capturing `customElementTypeName` and `f`. -/
  | elementConstructor (customElementTypeName : String) (f : Iface)
  /-- Lines 170–172, capturing `field`. -/
  | fieldGetter (field : StructField)
  /-- Lines 173–180, capturing `field`. -/
  | fieldSetter (field : StructField)
  /-- Lines 186–196, capturing `customElementFields`. -/
  | observedAttributesGetter (customElementFields : List StructField)
  | connectedCallback
  | disconnectedCallback
  | attributeChangedCallback
  | adoptedCallback

/-- A JavaScript value passed to or from a script: the primitives, among the
numbers the integers that JavaScript holds exactly (magnitude below 2^53),
symbols, and handles of plain objects, which keep the `toString` of
`Object.prototype`. -/
inductive JSValue
  | undefined
  | null
  | bool (b : Bool)
  | number (n : Int) (safe : n.natAbs < 9007199254740992)
  | string (s : String)
  | symbol (description : String)
  | object (ref : Nat)
  deriving DecidableEq, Repr

/-- The conversion `String(v)` of JavaScript, which `(*js.Object).String()`
applies.  An integer below 2^53 prints in decimal. -/
def JSValue.String : JSValue → String
  | .undefined => "undefined"
  | .null => "null"
  | .bool true => "true"
  | .bool false => "false"
  | .number n _ => toString n
  | .string s => s
  | .symbol description => "Symbol(" ++ description ++ ")"
  | .object _ => "[object Object]"

/-- What a name of the global namespace or a registry slot can hold: a script
value, or a function made by `js.MakeFunc`. -/
inductive HostValue
  | data (v : JSValue)
  | goFunc (c : Closure)

/-- Object operand of a host call: a value, or the `prototype` property read off a value. -/
inductive JSExpr
  | val (v : HostValue)
  | prototypeOf (v : HostValue)

/-- The calls the registration code makes on the host, in the shape it makes
them, with the receiver the call goes to. -/
inductive HostCall
  /-- `js.Global.Get(name)`. -/
  | globalGet (name : String)
  /-- `js.Global.Set(name, value)`. -/
  | globalSet (name : String) (value : HostValue)
  /-- `object.Call("setPrototypeOf", obj, proto)`. -/
  | setPrototypeOf (object : HostValue) (obj : JSExpr) (proto : JSExpr)
  /-- `object.Call("defineProperty", obj, name, descriptor)` with the descriptor's `get` and `set`. -/
  | defineProperty (object : HostValue) (obj : JSExpr) (name : String) (get : Closure)
      (set : Option Closure)
  /-- `obj.Set(name, js.MakeFunc(value))`. -/
  | setProperty (obj : JSExpr) (name : String) (value : Closure)
  /-- `customElements.Call("define", tag, ctor)`. -/
  | customElementsDefine (customElements : HostValue) (tag : String) (ctor : HostValue)

/-- The browser page as the registration code sees it: `globals` is the global
namespace, `registry` the custom-element registry in registration order, `log`
every call made on the host so far. -/
structure Host where
  globals : String → Option HostValue
  registry : List (String × HostValue)
  log : List HostCall

def Host.record (h : Host) (call : HostCall) : Host :=
  { globals := h.globals, registry := h.registry, log := h.log ++ [call] }

/-- The value a global reads as: `undefined` when the name is not bound. -/
def Host.read (h : Host) (name : String) : HostValue :=
  (h.globals name).getD (.data .undefined)

/-- Sequencing of two steps of Go code on the host: a panic of the first step
ends the run in the state reached. -/
def thenDo {α β : Type} (x : Except Panic α × Host)
    (k : α → Host → Except Panic β × Host) : Except Panic β × Host :=
  match x with
  | (.error p, h) => (.error p, h)
  | (.ok a, h) => k a h

section HostCalls

/- Whether the host lets a call through is the browser's decision: `throws`
gives, from the registry and the call, the name of the JavaScript exception the
host throws, or `none` when the call goes through. -/
variable (throws : List (String × HostValue) → HostCall → Option String)

/-- One call on the host: it is logged, and either the host throws, which
surfaces as a `*js.Error` panic, or the call goes through. -/
def Host.call (h : Host) (call : HostCall) : Except Panic Unit × Host :=
  match throws h.registry call with
  | some exception => (.error (.jsError exception), h.record call)
  | none => (.ok (), h.record call)

/-- `js.Global.Get(name)`: a name that is not bound reads as `undefined`. -/
def js.Global.Get (h : Host) (name : String) : Except Panic HostValue × Host :=
  thenDo (Host.call throws h (.globalGet name)) fun _ h1 =>
    (.ok (h1.read name), h1)

/-- `js.Global.Set(name, value)`: when the host lets the assignment through,
the name is bound to the value. -/
def js.Global.Set (h : Host) (name : String) (value : HostValue) : Except Panic Unit × Host :=
  thenDo (Host.call throws h (.globalSet name value)) fun _ h1 =>
    (.ok (), { globals := Function.update h1.globals name (some value),
               registry := h1.registry, log := h1.log })

/-- `object.Call("setPrototypeOf", obj, proto)`. -/
def Object.setPrototypeOf (h : Host) (object : HostValue) (obj proto : JSExpr) :
    Except Panic Unit × Host :=
  Host.call throws h (.setPrototypeOf object obj proto)

/-- `object.Call("defineProperty", obj, name, descriptor)` on an object `obj`
made by this run of `Define`, whose own accessor properties so far are
`ownAccessors`.  An accessor defined this way is not configurable, and defining
the name again with another descriptor throws a `TypeError`. -/
def Object.defineProperty (h : Host) (object : HostValue) (obj : JSExpr)
    (ownAccessors : List String) (name : String) (get : Closure) (set : Option Closure) :
    Except Panic Unit × Host :=
  thenDo (Host.call throws h (.defineProperty object obj name get set)) fun _ h1 =>
    if name ∈ ownAccessors then (.error (.jsError "TypeError"), h1) else (.ok (), h1)

/-- `prototype.Set(name, js.MakeFunc(value))` on the prototype that carries one
accessor per field of `customElementFields`.  When a field has this name the
assignment runs the setter line 181 installed, with the prototype as `this`: no
element is linked to the prototype, and the setter throws. -/
def js.Object.Set (h : Host) (prototype : JSExpr) (customElementFields : List StructField)
    (name : String) (value : Closure) : Except Panic Unit × Host :=
  thenDo (Host.call throws h (.setProperty prototype name value)) fun _ h1 =>
    if name ∈ customElementFields.map StructField.Name then (.error .jsAccessorError, h1)
    else (.ok (), h1)

/-- Host: `customElements.Call("define", tag, ctor)`: when the host lets the
call through, the class is registered under the tag. -/
def customElements.define (h : Host) (customElements : HostValue) (tag : String)
    (ctor : HostValue) : Except Panic Unit × Host :=
  thenDo (Host.call throws h (.customElementsDefine customElements tag ctor)) fun _ h1 =>
    (.ok (), { globals := h1.globals, registry := h1.registry ++ [(tag, ctor)], log := h1.log })

/-- Lines 108–133: sets callbacks of CustomElements v1 on the prototype, which
carries the accessors of `customElementFields`. -/
def setPrototypeCallbacks (h : Host) (prototype : JSExpr)
    (customElementFields : List StructField) : Except Panic Unit × Host :=
  thenDo (js.Object.Set throws h prototype customElementFields
    "connectedCallback" .connectedCallback) fun _ h1 =>
  thenDo (js.Object.Set throws h1 prototype customElementFields
    "disconnectedCallback" .disconnectedCallback) fun _ h2 =>
  thenDo (js.Object.Set throws h2 prototype customElementFields
    "attributeChangedCallback" .attributeChangedCallback) fun _ h3 =>
  js.Object.Set throws h3 prototype customElementFields "adoptedCallback" .adoptedCallback

/-! ## Define -/

/-- Lines 167–182: one accessor pair per field, defined on the prototype;
`defined` lists the names the loop has defined so far. -/
def Define.defineAccessors (object : HostValue) (prototype : JSExpr) :
    Host → List String → List StructField → Except Panic Unit × Host
  | h, _, [] => (.ok (), h)
  | h, defined, field :: rest =>
    thenDo (Object.defineProperty throws h object prototype defined field.Name
      (.fieldGetter field) (some (.fieldSetter field))) fun _ h1 =>
    Define.defineAccessors object prototype h1 (field.Name :: defined) rest

/-- Lines 144–199 of `Define`: everything after the validation and before the
registration.  Returns `customElementTypeName` and `element`. -/
def Define.synthesize (h : Host) (f : Iface) : Except Panic (String × HostValue) × Host :=
  thenDo (js.Global.Get throws h "HTMLElement") fun htmlElement h1 =>
  thenDo (js.Global.Get throws h1 "Object") fun object h2 =>
  match resultElemType f with
  | .error p => (.error p, h2)
  | .ok customElementType =>
    let customElementTypeName := customElementType.Name
    let element := HostValue.goFunc (.elementConstructor customElementTypeName f)
    thenDo (js.Global.Set throws h2 customElementTypeName element) fun _ h3 =>
    let prototype := JSExpr.prototypeOf element
    thenDo (Object.setPrototypeOf throws h3 object prototype (.prototypeOf htmlElement))
      fun _ h4 =>
    thenDo (Object.setPrototypeOf throws h4 object (.val element) (.val htmlElement))
      fun _ h5 =>
    match getStructFields customElementType with
    | .error p => (.error p, h5)
    | .ok customElementFields =>
      thenDo (Define.defineAccessors throws object prototype h5 [] customElementFields)
        fun _ h6 =>
      thenDo (Object.defineProperty throws h6 object (.val element) [] "observedAttributes"
        (.observedAttributesGetter customElementFields) none) fun _ h7 =>
      thenDo (setPrototypeCallbacks throws h7 prototype customElementFields) fun _ h8 =>
      (.ok (customElementTypeName, element), h8)

end HostCalls

/-- The names of the four callback slots `setPrototypeCallbacks` assigns. -/
def callbackSlots : List String :=
  ["connectedCallback", "disconnectedCallback", "attributeChangedCallback", "adoptedCallback"]

/-- The calls of lines 144–199 for a constructor `f` of `*T`, `T` a struct type
named `sname` with the fields `fields`, in the order they are made; `htmlElement`
and `object` are the values the first two calls read. -/
def synthesizeCalls (f : Iface) (htmlElement object : HostValue) (sname : String)
    (fields : List StructField) : List HostCall :=
  [.globalGet "HTMLElement", .globalGet "Object",
    .globalSet sname (.goFunc (.elementConstructor sname f)),
    .setPrototypeOf object (.prototypeOf (.goFunc (.elementConstructor sname f)))
      (.prototypeOf htmlElement),
    .setPrototypeOf object (.val (.goFunc (.elementConstructor sname f))) (.val htmlElement)]
  ++ fields.map (fun field =>
      HostCall.defineProperty object (.prototypeOf (.goFunc (.elementConstructor sname f)))
        field.Name (.fieldGetter field) (some (.fieldSetter field)))
  ++ [.defineProperty object (.val (.goFunc (.elementConstructor sname f))) "observedAttributes"
        (.observedAttributesGetter fields) none,
    .setProperty (.prototypeOf (.goFunc (.elementConstructor sname f)))
      "connectedCallback" .connectedCallback,
    .setProperty (.prototypeOf (.goFunc (.elementConstructor sname f)))
      "disconnectedCallback" .disconnectedCallback,
    .setProperty (.prototypeOf (.goFunc (.elementConstructor sname f)))
      "attributeChangedCallback" .attributeChangedCallback,
    .setProperty (.prototypeOf (.goFunc (.elementConstructor sname f)))
      "adoptedCallback" .adoptedCallback]

/-- The two calls of line 201 for the tag `tag`; `customElements` is the value
the first of them reads. -/
def registrationCalls (f : Iface) (customElements : HostValue) (sname tag : String) :
    List HostCall :=
  [.globalGet "customElements",
    .customElementsDefine customElements tag (.goFunc (.elementConstructor sname f))]

/-- Whether a call is a call of `customElements.define`. -/
def HostCall.isRegistration : HostCall → Bool
  | .customElementsDefine _ _ _ => true
  | _ => false

/-- The page `h1` differs from the page `h` in nothing that a registration
shows: the registry is the same, every global but the one named `sname` is the
same, and the log has gained no call of `customElements.define`. -/
def Host.keeps (sname : String) (h h1 : Host) : Prop :=
  h1.registry = h.registry
  ∧ (∀ name, name ≠ sname → h1.globals name = h.globals name)
  ∧ (∀ call ∈ h1.log, call.isRegistration = true → call ∈ h.log)

section Define

variable (camelCaseToKebab : String → String)

/-- All host calls of `Define`, in order, for a constructor `f` of `*T`, `T` a
struct type named `sname` with the fields `fields`, on the page `h`: the calls
of lines 144–199 and the two of line 201, which reads `customElements` after
line 159 has bound the global `sname`. -/
def Define.calls (h : Host) (f : Iface) (sname : String) (fields : List StructField) :
    List HostCall :=
  synthesizeCalls f (h.read "HTMLElement") (h.read "Object") sname fields
  ++ registrationCalls f
      ((Function.update h.globals sname (some (.goFunc (.elementConstructor sname f)))
        "customElements").getD (.data .undefined))
      sname (camelCaseToKebab sname)

/-- Lines 138–203: registers a new custom element; takes the constructor of the
element, `func()*YourElemType`. -/
def Define (throws : List (String × HostValue) → HostCall → Option String)
    (h : Host) (f : Iface) : Except Panic (Option DefineError) × Host :=
  match testConstructorFunction camelCaseToKebab f with
  | .error p => (.error p, h)
  | .ok (some err) => (.ok (some err), h)
  | .ok none =>
    thenDo (Define.synthesize throws h f) fun synthesized h1 =>
    thenDo (js.Global.Get throws h1 "customElements") fun registryObject h2 =>
    thenDo (customElements.define throws h2 registryObject
      (camelCaseToKebab synthesized.1) synthesized.2) fun _ h3 =>
    (.ok none, h3)

/-- Lines 186–196: the body of the `observedAttributes` getter. -/
def observedAttributes (customElementFields : List StructField) : List String :=
  customElementFields.foldl
    (fun observedAttributes field =>
      if field.PkgPath ≠ "" then observedAttributes
      else observedAttributes ++ [camelCaseToKebab field.Name])
    []

/-- Lines 164 and 184–197: what the `observedAttributes` getter that `Define`
installs for the constructor `f` returns: the getter body on
`customElementFields = getStructFields(reflect.TypeOf(f).Out(0).Elem())`. -/
def Define.observedAttributesGetter (f : Iface) : Except Panic (List String) :=
  match resultElemType f with
  | .error p => .error p
  | .ok customElementType =>
    match getStructFields customElementType with
    | .error p => .error p
    | .ok customElementFields => .ok (observedAttributes camelCaseToKebab customElementFields)

end Define

/-! ## Element instances -/

/-- A native element linked to its component by the element constructor:
`attributes` are the DOM attributes of the native element, `fields` the
properties of the component's `__internal_object__`, that is the fields of the
Go struct. -/
structure Instance where
  attributes : String → Option String
  fields : String → Option JSValue

section Accessors

variable (camelCaseToKebab kebabToCamelCase Title : String → String)

/-- Lines 47–50: `Element.AttributeChangedCallback` (the `println` writes to the
console only). -/
def Element.AttributeChangedCallback (e : Instance)
    (attributeName _oldValue newValue _namespace : String) : Instance :=
  { attributes := e.attributes,
    fields := Function.update e.fields (Title (kebabToCamelCase attributeName))
      (some (.string newValue)) }

/-- Lines 117–125: the `attributeChangedCallback` slot of the prototype, called
by the host with four arguments. -/
def attributeChangedCallback (this : Instance) (arg0 arg1 arg2 arg3 : JSValue) : Instance :=
  Element.AttributeChangedCallback kebabToCamelCase Title this
    arg0.String arg1.String arg2.String arg3.String

/- The conversion of the value argument of `setAttribute` to a string is the
host's: `toDOMString` gives the string, or the name of the exception thrown. -/
variable (toDOMString : JSValue → Except String String)

/-- Host: `this.setAttribute(name, value)` on an element of a class registered
with the observed attributes `observed`.  The host converts the value to a
string; when the conversion throws, nothing changes and the exception surfaces
as a panic.  Otherwise the attribute takes the string, and when the name is
observed the host runs the element's `attributeChangedCallback(name, old, new,
null)` before the call returns; an attribute that did not exist has the old
value `null`.  The callback is the one of `Element`, which a component has
through the embedding. -/
def Instance.setAttribute (observed : List String) (this : Instance)
    (name : String) (value : JSValue) : Except Panic Unit × Instance :=
  match toDOMString value with
  | .error exception => (.error (.jsError exception), this)
  | .ok newValue =>
    let oldValue : JSValue :=
      match this.attributes name with
      | some s => .string s
      | none => .null
    let this1 : Instance :=
      { attributes := Function.update this.attributes name (some newValue),
        fields := this.fields }
    if name ∈ observed then
      (.ok (), attributeChangedCallback kebabToCamelCase Title this1
        (.string name) oldValue (.string newValue) .null)
    else (.ok (), this1)

/-- Lines 170–172: the getter of a field; a property that was never set reads `undefined`. -/
def fieldGetter (field : StructField) (this : Instance) : JSValue :=
  (this.fields field.Name).getD .undefined

/-- Lines 173–180: the setter of a field, on an element of the class whose
fields are `customElementFields`.  Returns the value handed back, or the panic,
and the element. -/
def fieldSetter (customElementFields : List StructField) (field : StructField)
    (this : Instance) (arg0 : JSValue) : Except Panic JSValue × Instance :=
  match (if field.PkgPath = "" then
      Instance.setAttribute kebabToCamelCase Title toDOMString
        (observedAttributes camelCaseToKebab customElementFields)
        this (camelCaseToKebab field.Name) arg0
    else (.ok (), this)) with
  | (.error p, this1) => (.error p, this1)
  | (.ok _, this1) =>
    (.ok arg0, { attributes := this1.attributes,
                 fields := Function.update this1.fields field.Name (some arg0) })

end Accessors

/-! ## Shadow tree scan -/

/-- A node of a rendered tree: `ref` is the handle of its `*js.Object`,
`attributes` its attribute collection (`none` when the property is `undefined`,
as on a shadow root), `children` its element children. -/
inductive Node
  | mk (ref : Nat) (attributes : Option (List (String × String))) (children : List Node)

def Node.attributes : Node → Option (List (String × String))
  | .mk _ a _ => a

def Node.children : Node → List Node
  | .mk _ _ cs => cs

/-- A Go `map[string]*js.Object`: `none` is the nil map. -/
abbrev ChildrenMap := Option (String → Option Node)

/-- `e.Children[id] = element`: assignment to an entry of a nil map panics. -/
def ChildrenMap.assign (m : ChildrenMap) (id : String) (element : Node) :
    Except Panic ChildrenMap :=
  match m with
  | none => .error .nilMapAssignment
  | some entries => .ok (some (Function.update entries id (some element)))

/-- Lines 60–68: the loop over the attributes of `element`. -/
def scanElement.attributes (element : Node) :
    ChildrenMap → List (String × String) → Except Panic ChildrenMap
  | m, [] => .ok m
  | m, attr :: rest =>
    if attr.1 = "id" then
      match ChildrenMap.assign m attr.2 element with
      | .error p => .error p
      | .ok m1 => scanElement.attributes element m1 rest
    else scanElement.attributes element m rest

mutual
/-- Lines 57–76: `Element.scanElement`, on the `Children` map of `e`. -/
def Element.scanElement (Children : ChildrenMap) : Node → Except Panic ChildrenMap
  | .mk ref elementAttributes children =>
    match (match elementAttributes with
      | none => Except.ok Children
      | some attrs =>
        scanElement.attributes (.mk ref elementAttributes children) Children attrs) with
    | .error p => .error p
    | .ok m => Element.scanElement.children m children
/-- Lines 72–75: the loop over the children. -/
def Element.scanElement.children (Children : ChildrenMap) : List Node → Except Panic ChildrenMap
  | [] => .ok Children
  | child :: rest =>
    match Element.scanElement Children child with
    | .error p => .error p
    | .ok m => Element.scanElement.children m rest
end

/-! ### The scan as the specification words it -/

mutual
/-- The node and its descendants, each once, parent before children, siblings in order. -/
def Node.preorder : Node → List Node
  | .mk ref attrs children => .mk ref attrs children :: Node.preorderAll children
/-- Pre-order listing of a forest. -/
def Node.preorderAll : List Node → List Node
  | [] => []
  | child :: rest => Node.preorder child ++ Node.preorderAll rest
end

mutual
/-- Number of nodes of a tree. -/
def Node.size : Node → Nat
  | .mk _ _ children => 1 + Node.sizeAll children
/-- Number of nodes of a forest. -/
def Node.sizeAll : List Node → Nat
  | [] => 0
  | child :: rest => Node.size child + Node.sizeAll rest
end

/-- The values of the `id` attributes a node carries (none without an attribute collection). -/
def Node.ids (n : Node) : List String :=
  match n.attributes with
  | none => []
  | some attrs => (attrs.filter (fun attr => attr.1 = "id")).map (fun attr => attr.2)

/-- Record `id-value -> node` for a visited node, overwriting earlier entries. -/
def indexNode (m : String → Option Node) (n : Node) : String → Option Node :=
  n.ids.foldl (fun acc id => Function.update acc id (some n)) m

/-- The map the specification describes: the initial map updated along the pre-order visit. -/
def scanSpec (m : String → Option Node) (root : Node) : String → Option Node :=
  (Node.preorder root).foldl indexNode m

/-- The attribute collection holds no `id` attribute. -/
def noIdAttribute : Option (List (String × String)) → Bool
  | none => true
  | some attrs => attrs.all (fun attr => attr.1 ≠ "id")

mutual
/-- No node of the tree carries an `id` attribute. -/
def Node.hasNoId : Node → Bool
  | .mk _ attrs children => noIdAttribute attrs && Node.hasNoIdAll children
/-- No node of the forest carries an `id` attribute. -/
def Node.hasNoIdAll : List Node → Bool
  | [] => true
  | child :: rest => Node.hasNoId child && Node.hasNoIdAll rest
end

/-! ## Helpers defined outside golymer.go -/

/-- Worker of `specCamelCaseToKebab`; `first` marks the first character. -/
def specCamelCaseToKebab.go : Bool → List Char → List Char
  | _, [] => []
  | first, c :: cs =>
    if c.isUpper && !first then '-' :: c.toLower :: specCamelCaseToKebab.go false cs
    else c.toLower :: specCamelCaseToKebab.go false cs

/-- Modelled from the spec: `camelCaseToKebab` is called by golymer.go and defined
in another file of the package.  The spec: it "lowercases and inserts `-` before
each uppercase boundary (e.g. `MyElement` → `my-element`)"; an upper-case letter
that is not the first character is taken to start a word. -/
def specCamelCaseToKebab (s : String) : String :=
  ⟨specCamelCaseToKebab.go true s.data⟩

/-- Worker of `specKebabToCamelCase`; `up` says the next character is upper-cased. -/
def specKebabToCamelCase.go : Bool → List Char → List Char
  | _, [] => []
  | up, c :: cs =>
    if c = '-' then specKebabToCamelCase.go true cs
    else (if up then c.toUpper else c) :: specKebabToCamelCase.go false cs

/-- Modelled from the spec: `kebabToCamelCase` is called by golymer.go and defined
in another file of the package.  The spec: it works by "removing `-` and
uppercasing the following character". -/
def specKebabToCamelCase (s : String) : String :=
  ⟨specKebabToCamelCase.go false s.data⟩

/-- The word separators of `strings.Title` among the ASCII characters:
everything but letters, digits and the underscore.  Characters past ASCII are
not treated as separators here. -/
def isSeparator (r : Char) : Bool :=
  if r.val ≤ 0x7F then !(r.isAlphanum || r = '_') else false

/-- Worker of `asciiTitle`; `prev` is the character before. -/
def asciiTitle.go : Char → List Char → List Char
  | _, [] => []
  | prev, r :: rs => (if isSeparator prev then r.toUpper else r) :: asciiTitle.go r rs

/-- Go library `strings.Title` on ASCII text: the first letter of every word in upper case. -/
def asciiTitle (s : String) : String :=
  ⟨asciiTitle.go ' ' s.data⟩

/-- The name rule of `customElements.define` on ASCII tags: a lower-case letter
first, a hyphen somewhere, no upper-case letter, and none of the reserved names. -/
def asciiValidCustomElementName (tag : String) : Bool :=
  (match tag.data with
    | [] => false
    | c :: _ => c.isLower)
  && tag.data.contains '-'
  && tag.data.all (fun c => c.isLower || c.isDigit || c = '-' || c = '.' || c = '_')
  && !(["annotation-xml", "color-profile", "font-face", "font-face-src", "font-face-uri",
        "font-face-format", "font-face-name", "missing-glyph"].contains tag)

/-- The decisions of a browser page whose built-in globals are in place: the
three globals of the language that cannot be assigned, and the two checks of
`customElements.define` that concern the tag, the name rule and then the tag
being free; every other call goes through. -/
def browserThrows (registry : List (String × HostValue)) : HostCall → Option String
  | .globalSet name _ =>
    if name = "NaN" ∨ name = "Infinity" ∨ name = "undefined" then some "TypeError" else none
  | .customElementsDefine _ tag _ =>
    if asciiValidCustomElementName tag = false then some "SyntaxError"
    else if registry.any (fun entry => entry.1 == tag) then some "NotSupportedError"
    else none
  | _ => none

/-! ## Component types -/

/-- Import path of the package. -/
def golymerPkgPath : String := "github.com/bketelsen/golymer"

/-- Whether the struct type with these fields embeds `golymer.Element`: it has a
field `Element` that is embedded (and exported, as its name is) and whose type
is the `Element` of this package. -/
def embedsElement (fields : List StructField) : Bool :=
  fields.any (fun fld =>
    fld.Name == "Element" && fld.PkgPath == "" && fld.Anonymous && fld.Typ.Name == "Element"
      && fld.Typ.PkgPath == golymerPkgPath)

/-- The rule of Go that the field names of a struct, the blank `_` apart, are distinct. -/
def fieldNamesUnique (fields : List StructField) : Prop :=
  ((fields.map StructField.Name).filter (fun n => n ≠ "_")).Nodup

/-- Whether the struct type with these fields embeds `*golymer.Element`: its
embedded field `Element` is a pointer to the base type. -/
def embedsElementByPointer (fields : List StructField) : Bool :=
  fields.any (fun fld =>
    fld.Name == "Element" && fld.PkgPath == "" && fld.Anonymous
      && (match fld.Typ with
          | .ptr name elem =>
            name == "" && elem.Name == "Element" && elem.PkgPath == golymerPkgPath
          | _ => false))

/-- Whether the struct type embeds `golymer.Element` through embedded structs:
it has no field `Element` of its own, it has embedded fields, and the library
search through them comes back with an embedded field `Element` of the base type. -/
def embedsElementPromoted (fields : List StructField)
    (promoted : String → Option StructField) : Bool :=
  fields.all (fun fld => fld.Name != "Element") && fields.any (fun fld => fld.Anonymous)
    && (match promoted "Element" with
        | some fld =>
          fld.Name == "Element" && fld.PkgPath == "" && fld.Anonymous
            && fld.Typ.Name == "Element" && fld.Typ.PkgPath == golymerPkgPath
        | none => false)

/-- Look a name up among fields reached through embedding. -/
def lookupField (fields : List StructField) (name : String) : Option StructField :=
  fields.find? (fun fld => fld.Name == name)

def jsPkgPath : String := "github.com/gopherjs/gopherjs/js"

/-- Fields of `js.Object`; the pointer back to `js.Object` is cut after one step. -/
def jsObjectFields : List StructField :=
  [.mk "object" jsPkgPath (.ptr "" (.struct "Object" jsPkgPath [] (fun _ => none))) false]

def jsObjectType : RType :=
  .struct "Object" jsPkgPath jsObjectFields (fun _ => none)

/-- Lines 22–26: the fields of `Element`. -/
def elementFields : List StructField :=
  [.mk "Object" "" (.ptr "" jsObjectType) true,
   .mk "Template" "" (.other .String "string") false,
   .mk "Children" "" (.other .Map "") false]

/-- Lines 22–26: the type `Element`. -/
def elementType : RType :=
  .struct "Element" golymerPkgPath elementFields (lookupField jsObjectFields)

/-- A component type of package `main`: `type name struct { golymer.Element; userFields }`. -/
def componentType (name : String) (userFields : List StructField) : RType :=
  .struct name "main" (.mk "Element" "" elementType true :: userFields)
    (lookupField (elementFields ++ jsObjectFields))

/-- The type `func() *T` of a constructor, as an interface value. -/
def constructorOf (T : RType) : Iface :=
  some (.func "" [] [.ptr "" T])

/-- Type `MyElement struct { golymer.Element }`. -/
def myElementType : RType := componentType "MyElement" []

/-- Type `Foo struct { golymer.Element }`. -/
def fooType : RType := componentType "Foo" []

/-- Fields `Label string` and `count int`. -/
def widgetUserFields : List StructField :=
  [.mk "Label" "" (.other .String "string") false,
   .mk "count" "main" (.other .Int "int") false]

/-- Type `MyWidget struct { golymer.Element; Label string; count int }`. -/
def myWidgetType : RType := componentType "MyWidget" widgetUserFields

/-- A value of type `func(int) *MyElement`. -/
def constructorWithArgument : Iface :=
  some (.func "" [.other .Int "int"] [.ptr "" myElementType])

/-- Type `Element struct {}` of another package. -/
def otherElementType : RType :=
  .struct "Element" "example.com/other" [] (fun _ => none)

/-- Fields of `MyElement struct { other.Element }`: the embedded type is not golymer's. -/
def lookalikeEmbeddedFields : List StructField :=
  [.mk "Element" "" otherElementType true]

/-- Fields of `MyElement struct { Element golymer.Element }`: a named field, nothing embedded. -/
def lookalikeNamedFields : List StructField :=
  [.mk "Element" "" elementType false]

/-- Fields of `MyElement struct { *golymer.Element }`: the base type embedded by pointer. -/
def pointerEmbeddedFields : List StructField :=
  [.mk "Element" "" (.ptr "" elementType) true]

/-- Type `MyElement struct { *golymer.Element }`. -/
def pointerEmbeddedType : RType :=
  .struct "MyElement" "main" pointerEmbeddedFields (lookupField (elementFields ++ jsObjectFields))

/-- Fields of `MyElement struct { E }` with the alias `type E = golymer.Element`:
the embedded field carries the name of the alias. -/
def aliasEmbeddedFields : List StructField :=
  [.mk "E" "" elementType true]

/-- Type `MyElement struct { E }` with the alias `type E = golymer.Element`. -/
def aliasEmbeddedType : RType :=
  .struct "MyElement" "main" aliasEmbeddedFields (lookupField (elementFields ++ jsObjectFields))

/-- Type `Base struct { golymer.Element }`. -/
def baseType : RType :=
  .struct "Base" "main" [.mk "Element" "" elementType true]
    (lookupField (elementFields ++ jsObjectFields))

/-- Fields of `MyElement struct { Base }`: the base type embedded through `Base`. -/
def nestedEmbeddedFields : List StructField :=
  [.mk "Base" "" baseType true]

/-- Type `MyElement struct { Base }`: the field `Element` of `Base` is promoted. -/
def nestedEmbeddedType : RType :=
  .struct "MyElement" "main" nestedEmbeddedFields
    (lookupField (.mk "Element" "" elementType true :: elementFields ++ jsObjectFields))

/-- Type `MyElement struct { golymer.Element; _ int; _ int }`, with two blank fields. -/
def blankFieldsType : RType :=
  componentType "MyElement"
    [.mk "_" "main" (.other .Int "int") false, .mk "_" "main" (.other .Int "int") false]

/-- Type `MyElement struct { golymer.Element; connectedCallback int }`, with a
field named like a callback slot. -/
def slotFieldType : RType :=
  componentType "MyElement" [.mk "connectedCallback" "main" (.other .Int "int") false]

/-- A value of type `func() *int`. -/
def intPointerConstructor : Iface :=
  some (.func "" [] [.ptr "" (.other .Int "int")])

/-! ## Example hosts, instances and trees -/

/-- A page on which nothing is registered yet. -/
def freshHost : Host :=
  { globals := fun name =>
      if name = "HTMLElement" then some (.data (.object 1))
      else if name = "Object" then some (.data (.object 2))
      else if name = "Reflect" then some (.data (.object 3))
      else if name = "customElements" then some (.data (.object 4))
      else none,
    registry := [],
    log := [] }

/-- The page after `MyElement` has been defined on a fresh page. -/
def hostWithMyElement : Host :=
  (Define specCamelCaseToKebab browserThrows freshHost
    (constructorOf myElementType)).2

/-- The node `<span id="header">`. -/
def headerNode : Node := .mk 3 (some [("id", "header")]) []

/-- A shadow root holding `<div class="a"><p></p><span id="header"></span><b></b></div><i></i>`. -/
def sampleTree : Node :=
  .mk 0 none
    [.mk 1 (some [("class", "a")]) [.mk 2 (some []) [], headerNode, .mk 4 (some []) []],
     .mk 5 (some []) []]


/-! ## Lemmas on the library functions -/

theorem strings_indexFrom_hyphen (l : List Char) (off : Nat) :
    strings.indexFrom ['-'] l off = -1 ↔ '-' ∉ l := by
  induction l generalizing off with
  | nil => simp [strings.indexFrom]
  | cons c cs ih =>
    by_cases hc : '-' = c
    · subst hc
      simp only [strings.indexFrom, beginsWith, beq_self_eq_true, Bool.and_self, if_true]
      constructor
      · intro h
        omega
      · intro h
        exact absurd (List.mem_cons_self _ _) h
    · have hb : beginsWith ['-'] (c :: cs) = false := by
        simp [beginsWith, hc]
      simp only [strings.indexFrom, hb, Bool.false_eq_true, if_false, ih]
      simp [List.mem_cons, hc]

theorem strings_Index_hyphen (s : String) :
    strings.Index s "-" = -1 ↔ '-' ∉ s.data := by
  unfold strings.Index
  exact strings_indexFrom_hyphen s.data 0

theorem find_field_of_unique (fields : List StructField) (fld : StructField) (name : String)
    (hu : fieldNamesUnique fields) (hmem : fld ∈ fields) (hname : fld.Name = name)
    (hblank : name ≠ "_") :
    fields.find? (fun x => x.Name == name) = some fld := by
  induction fields with
  | nil => cases hmem
  | cons a rest ih =>
    unfold fieldNamesUnique at hu
    by_cases ha : a.Name = name
    · have hnb : a.Name ≠ "_" := by rw [ha]; exact hblank
      simp only [List.map_cons, List.filter_cons, hnb, ne_eq, not_false_eq_true,
        decide_True, if_true, List.nodup_cons] at hu
      rcases List.mem_cons.1 hmem with h | h
      · subst h
        simp [List.find?, ha]
      · exfalso
        apply hu.1
        refine List.mem_filter.2 ⟨List.mem_map.2 ⟨fld, h, ?_⟩, ?_⟩
        · rw [hname, ha]
        · simpa using hnb
    · have hrest : fieldNamesUnique rest := by
        unfold fieldNamesUnique
        simp only [List.map_cons, List.filter_cons] at hu
        split at hu
        · exact (List.nodup_cons.1 hu).2
        · exact hu
      rcases List.mem_cons.1 hmem with h | h
      · subst h
        exact absurd hname ha
      · have hb : (a.Name == name) = false := by simpa using ha
        rw [List.find?_cons, hb]
        exact ih hrest h

/-! ## The constructor validator -/

theorem testConstructorFunction_struct (camelCaseToKebab : String → String)
    (fname : String) (ins : List RType) (pname sname spkg : String)
    (fields : List StructField) (promoted : String → Option StructField) (fld : StructField)
    (hfind : fields.find? (fun x => x.Name == "Element") = some fld)
    (hty : fld.Typ.Name = "Element") :
    testConstructorFunction camelCaseToKebab
        (some (.func fname ins [.ptr pname (.struct sname spkg fields promoted)]))
      = if strings.Index (camelCaseToKebab sname) "-" = -1 then .ok (some .nameNotTwoWords)
        else .ok none := by
  have hn : (RType.struct sname spkg fields promoted).Name = sname := rfl
  simp [testConstructorFunction, reflect.ValueOf.Kind, reflect.TypeOf, RType.Kind,
    RType.NumOut, RType.Out, RType.Elem, RType.FieldByName, hfind, hty, hn]

theorem testConstructorFunction_nil_shape (camelCaseToKebab : String → String) (f : Iface)
    (h : testConstructorFunction camelCaseToKebab f = .ok none) :
    ∃ fname ins pname sname spkg fields promoted,
      f = some (.func fname ins [.ptr pname (.struct sname spkg fields promoted)]) := by
  cases f with
  | none => simp [testConstructorFunction, reflect.ValueOf.Kind] at h
  | some t =>
    cases t with
    | other k n => cases k <;> simp [testConstructorFunction, reflect.ValueOf.Kind, RType.Kind,
        OtherKind.toKind] at h
    | ptr n e => simp [testConstructorFunction, reflect.ValueOf.Kind, RType.Kind] at h
    | struct n p fs pr => simp [testConstructorFunction, reflect.ValueOf.Kind, RType.Kind] at h
    | func fname ins outs =>
      match outs, h with
      | [], h => simp [testConstructorFunction, reflect.ValueOf.Kind, RType.Kind,
          reflect.TypeOf, RType.NumOut] at h
      | _ :: _ :: _, h => simp [testConstructorFunction, reflect.ValueOf.Kind, RType.Kind,
          reflect.TypeOf, RType.NumOut] at h
      | [out], h =>
        cases out with
        | other k n => cases k <;> simp [testConstructorFunction, reflect.ValueOf.Kind,
            RType.Kind, reflect.TypeOf, RType.NumOut, RType.Out, OtherKind.toKind] at h
        | func n i o => simp [testConstructorFunction, reflect.ValueOf.Kind,
            RType.Kind, reflect.TypeOf, RType.NumOut, RType.Out] at h
        | struct n p fs pr => simp [testConstructorFunction, reflect.ValueOf.Kind,
            RType.Kind, reflect.TypeOf, RType.NumOut, RType.Out] at h
        | ptr pname elem =>
          cases elem with
          | other k n => simp [testConstructorFunction, reflect.ValueOf.Kind,
              RType.Kind, reflect.TypeOf, RType.NumOut, RType.Out, RType.Elem,
              RType.FieldByName] at h
          | func n i o => simp [testConstructorFunction, reflect.ValueOf.Kind,
              RType.Kind, reflect.TypeOf, RType.NumOut, RType.Out, RType.Elem,
              RType.FieldByName] at h
          | ptr n e => simp [testConstructorFunction, reflect.ValueOf.Kind,
              RType.Kind, reflect.TypeOf, RType.NumOut, RType.Out, RType.Elem,
              RType.FieldByName] at h
          | struct sname spkg fields promoted =>
            exact ⟨fname, ins, pname, sname, spkg, fields, promoted, rfl⟩

theorem testConstructorFunction_struct_accepts (camelCaseToKebab : String → String)
    (fname : String) (ins : List RType) (pname sname spkg : String)
    (fields : List StructField) (promoted : String → Option StructField) (fld : StructField)
    (hfind : fields.find? (fun x => x.Name == "Element") = some fld)
    (hty : fld.Typ.Name = "Element")
    (hyphen : '-' ∈ (camelCaseToKebab sname).data) :
    testConstructorFunction camelCaseToKebab
        (some (.func fname ins [.ptr pname (.struct sname spkg fields promoted)])) = .ok none := by
  rw [testConstructorFunction_struct camelCaseToKebab fname ins pname sname spkg fields
    promoted fld hfind hty]
  have hidx : ¬ strings.Index (camelCaseToKebab sname) "-" = -1 := by
    intro hc
    exact (strings_Index_hyphen _).1 hc hyphen
  simp [hidx]

/-- C1 (the code departs from it): `testConstructorFunction` never looks at the
arguments of the function.  It returns nil for `func(int) *MyElement`, with any
converter that gives `MyElement` a hyphenated tag, and on every function type
its answer is the one it gives for the same results without arguments. -/
theorem testConstructorFunction_ignores_arguments :
    testConstructorFunction specCamelCaseToKebab constructorWithArgument = .ok none
    ∧ (∀ camelCaseToKebab : String → String, '-' ∈ (camelCaseToKebab "MyElement").data →
        testConstructorFunction camelCaseToKebab constructorWithArgument = .ok none)
    ∧ ∀ (camelCaseToKebab : String → String) (fname : String) (ins outs : List RType),
        testConstructorFunction camelCaseToKebab (some (.func fname ins outs))
          = testConstructorFunction camelCaseToKebab (some (.func fname [] outs)) :=
  ⟨rfl,
   fun camelCaseToKebab hyphen =>
    testConstructorFunction_struct_accepts camelCaseToKebab "" [.other .Int "int"] ""
      "MyElement" "main" [.mk "Element" "" elementType true]
      (lookupField (elementFields ++ jsObjectFields)) (.mk "Element" "" elementType true)
      rfl rfl hyphen,
   fun _ _ _ _ => rfl⟩

/-- C3 (the code departs from it): a struct that embeds the `Element` of another
package, and a struct with a named, not embedded, field `Element`, embed no
`golymer.Element`, yet `testConstructorFunction` returns nil for their
constructors instead of the embedded-Element error, with any converter that
gives `MyElement` a hyphenated tag. -/
theorem testConstructorFunction_accepts_lookalike :
    embedsElement lookalikeEmbeddedFields = false
    ∧ embedsElement lookalikeNamedFields = false
    ∧ testConstructorFunction specCamelCaseToKebab
        (constructorOf (.struct "MyElement" "main" lookalikeEmbeddedFields (fun _ => none)))
        = .ok none
    ∧ testConstructorFunction specCamelCaseToKebab
        (constructorOf (.struct "MyElement" "main" lookalikeNamedFields (fun _ => none)))
        = .ok none
    ∧ (∀ camelCaseToKebab : String → String, '-' ∈ (camelCaseToKebab "MyElement").data →
        testConstructorFunction camelCaseToKebab
          (constructorOf (.struct "MyElement" "main" lookalikeEmbeddedFields (fun _ => none)))
          = .ok none
        ∧ testConstructorFunction camelCaseToKebab
          (constructorOf (.struct "MyElement" "main" lookalikeNamedFields (fun _ => none)))
          = .ok none) :=
  ⟨rfl, rfl, rfl, rfl,
   fun camelCaseToKebab hyphen =>
    ⟨testConstructorFunction_struct_accepts camelCaseToKebab "" [] "" "MyElement" "main"
        lookalikeEmbeddedFields (fun _ => none) (.mk "Element" "" otherElementType true)
        rfl rfl hyphen,
     testConstructorFunction_struct_accepts camelCaseToKebab "" [] "" "MyElement" "main"
        lookalikeNamedFields (fun _ => none) (.mk "Element" "" elementType false)
        rfl rfl hyphen⟩⟩

/-- C4 (the code departs from it): for a function with one result that is a
pointer to a type that is not a struct, such as `func() *int`,
`testConstructorFunction` reaches `FieldByName` on the pointed-to type and
panics; it returns no error value. -/
theorem testConstructorFunction_panics_on_pointer_to_non_struct
    (camelCaseToKebab : String → String) (fname pname : String) (ins : List RType) :
    (∀ (k : OtherKind) (n : String),
      testConstructorFunction camelCaseToKebab
        (some (.func fname ins [.ptr pname (.other k n)])) = .error .fieldByNameOfNonStruct)
    ∧ (∀ (n : String) (e : RType),
      testConstructorFunction camelCaseToKebab
        (some (.func fname ins [.ptr pname (.ptr n e)])) = .error .fieldByNameOfNonStruct)
    ∧ (∀ (n : String) (i o : List RType),
      testConstructorFunction camelCaseToKebab
        (some (.func fname ins [.ptr pname (.func n i o)])) = .error .fieldByNameOfNonStruct)
    ∧ testConstructorFunction camelCaseToKebab intPointerConstructor
        = .error .fieldByNameOfNonStruct :=
  ⟨fun _ _ => rfl, fun _ _ => rfl, fun _ _ _ => rfl, rfl⟩

theorem testConstructorFunction_lookup (camelCaseToKebab : String → String)
    (fname : String) (ins : List RType) (pname sname spkg : String)
    (fields : List StructField) (promoted : String → Option StructField)
    (found : Option StructField)
    (hfound : (RType.struct sname spkg fields promoted).FieldByName "Element" = .ok found) :
    testConstructorFunction camelCaseToKebab
        (some (.func fname ins [.ptr pname (.struct sname spkg fields promoted)]))
      = match found with
        | none => .ok (some .noEmbeddedElement)
        | some elemStruct =>
          if elemStruct.Typ.Name ≠ "Element" then .ok (some .noEmbeddedElement)
          else if strings.Index (camelCaseToKebab sname) "-" = -1 then
            .ok (some .nameNotTwoWords)
          else .ok none := by
  have hn : (RType.struct sname spkg fields promoted).Name = sname := rfl
  simp only [testConstructorFunction, reflect.ValueOf.Kind, reflect.TypeOf, RType.Kind,
    RType.NumOut, RType.Out, RType.Elem, hfound, hn, List.length_singleton, List.get?_cons_zero,
    ne_eq, not_true_eq_false, if_false]
  cases found <;> rfl

theorem find_field_none (fields : List StructField) (name : String)
    (h : ∀ fld ∈ fields, fld.Name ≠ name) :
    fields.find? (fun x => x.Name == name) = none := by
  rw [List.find?_eq_none]
  intro x hx
  simpa using h x hx

theorem testConstructorFunction_hyphen_test (camelCaseToKebab : String → String)
    (sname : String) :
    ((if strings.Index (camelCaseToKebab sname) "-" = -1 then
          (.ok (some .nameNotTwoWords) : Except Panic (Option DefineError))
        else .ok none) = .ok none
      ↔ '-' ∈ (camelCaseToKebab sname).data)
    ∧ ('-' ∉ (camelCaseToKebab sname).data →
        (if strings.Index (camelCaseToKebab sname) "-" = -1 then
          (.ok (some .nameNotTwoWords) : Except Panic (Option DefineError))
        else .ok none) = .ok (some .nameNotTwoWords)) := by
  by_cases hidx : strings.Index (camelCaseToKebab sname) "-" = -1
  · have hno := (strings_Index_hyphen _).1 hidx
    simp [hidx, hno]
  · have hyes : '-' ∈ (camelCaseToKebab sname).data := by
      by_contra hcon
      exact hidx ((strings_Index_hyphen _).2 hcon)
    simp [hidx, hyes]

/-- C5 (as stated it fails): `MyElement struct { *golymer.Element }` embeds the
base type by pointer and `MyElement struct { E }` embeds it through the alias
`type E = golymer.Element`; the tag `my-element` has a hyphen, yet
`testConstructorFunction` does not return nil for their constructors: it
returns the embedded-Element error. -/
theorem testConstructorFunction_rejects_pointer_embedding :
    embedsElementByPointer pointerEmbeddedFields = true
    ∧ '-' ∈ (specCamelCaseToKebab "MyElement").data
    ∧ testConstructorFunction specCamelCaseToKebab (constructorOf pointerEmbeddedType)
        = .ok (some .noEmbeddedElement)
    ∧ testConstructorFunction specCamelCaseToKebab (constructorOf pointerEmbeddedType)
        ≠ .ok none
    ∧ testConstructorFunction specCamelCaseToKebab (constructorOf aliasEmbeddedType)
        = .ok (some .noEmbeddedElement) := by
  have h : testConstructorFunction specCamelCaseToKebab (constructorOf pointerEmbeddedType)
      = .ok (some .noEmbeddedElement) := rfl
  refine ⟨rfl, by decide, h, ?_, rfl⟩
  rw [h]
  intro hc
  cases hc

/-- C5 (amended): for a function with one result that is a pointer to a struct
whose field names are distinct.  When the struct embeds `golymer.Element` by
value, as a field of its own or as one promoted through its embedded structs,
`testConstructorFunction` returns nil exactly when `camelCaseToKebab` of the
struct's type name contains the character `-`, and otherwise returns the
two-words error.  When the struct embeds `*golymer.Element`, or has no field
`Element` of its own and none that is promoted (as when the base type is
embedded under an alias name), it returns the embedded-Element error whatever
the type name is. -/
theorem testConstructorFunction_nil_iff_hyphen (camelCaseToKebab : String → String)
    (fname : String) (ins : List RType) (pname sname spkg : String)
    (fields : List StructField) (promoted : String → Option StructField)
    (hunique : fieldNamesUnique fields) :
    ((embedsElement fields = true ∨ embedsElementPromoted fields promoted = true) →
      (testConstructorFunction camelCaseToKebab
          (some (.func fname ins [.ptr pname (.struct sname spkg fields promoted)])) = .ok none
        ↔ '-' ∈ (camelCaseToKebab sname).data)
      ∧ ('-' ∉ (camelCaseToKebab sname).data →
          testConstructorFunction camelCaseToKebab
            (some (.func fname ins [.ptr pname (.struct sname spkg fields promoted)]))
            = .ok (some .nameNotTwoWords)))
    ∧ (embedsElementByPointer fields = true →
        testConstructorFunction camelCaseToKebab
          (some (.func fname ins [.ptr pname (.struct sname spkg fields promoted)]))
          = .ok (some .noEmbeddedElement))
    ∧ ((∀ fld ∈ fields, fld.Name ≠ "Element") → promoted "Element" = none →
        testConstructorFunction camelCaseToKebab
          (some (.func fname ins [.ptr pname (.struct sname spkg fields promoted)]))
          = .ok (some .noEmbeddedElement)) := by
  refine ⟨?_, ?_, ?_⟩
  · rintro (hembeds | hprom)
    · obtain ⟨fld, hmem, hfld⟩ := List.any_eq_true.1 hembeds
      simp only [Bool.and_eq_true, beq_iff_eq] at hfld
      obtain ⟨⟨⟨⟨hname, _⟩, _⟩, htyp⟩, _⟩ := hfld
      have hfind := find_field_of_unique fields fld "Element" hunique hmem hname (by decide)
      rw [testConstructorFunction_struct camelCaseToKebab fname ins pname sname spkg fields
        promoted fld hfind htyp]
      exact testConstructorFunction_hyphen_test camelCaseToKebab sname
    · unfold embedsElementPromoted at hprom
      simp only [Bool.and_eq_true, List.all_eq_true, bne_iff_ne, ne_eq] at hprom
      obtain ⟨⟨hnone, hanon⟩, hp⟩ := hprom
      cases hpe : promoted "Element" with
      | none => simp [hpe] at hp
      | some fld =>
        simp only [hpe, Bool.and_eq_true, beq_iff_eq] at hp
        obtain ⟨⟨⟨⟨_, _⟩, _⟩, htyp⟩, _⟩ := hp
        have hfound : (RType.struct sname spkg fields promoted).FieldByName "Element"
            = .ok (some fld) := by
          simp only [RType.FieldByName, find_field_none fields "Element" hnone, hanon, if_true,
            hpe]
        rw [testConstructorFunction_lookup camelCaseToKebab fname ins pname sname spkg fields
          promoted (some fld) hfound]
        simp only [htyp, ne_eq, not_true_eq_false, if_false]
        exact testConstructorFunction_hyphen_test camelCaseToKebab sname
  · intro hptr
    obtain ⟨fld, hmem, hfld⟩ := List.any_eq_true.1 hptr
    simp only [Bool.and_eq_true, beq_iff_eq] at hfld
    obtain ⟨⟨⟨hname, _⟩, _⟩, htyp⟩ := hfld
    have hfind := find_field_of_unique fields fld "Element" hunique hmem hname (by decide)
    have hfound : (RType.struct sname spkg fields promoted).FieldByName "Element"
        = .ok (some fld) := by
      simp only [RType.FieldByName, hfind]
    rw [testConstructorFunction_lookup camelCaseToKebab fname ins pname sname spkg fields
      promoted (some fld) hfound]
    have hty : fld.Typ.Name ≠ "Element" := by
      cases hT : fld.Typ with
      | other k n => simp [hT] at htyp
      | func n i o => simp [hT] at htyp
      | struct n p fs pr => simp [hT] at htyp
      | ptr name elem =>
        simp only [hT, Bool.and_eq_true, beq_iff_eq] at htyp
        simp only [RType.Name, htyp.1.1]
        decide
    simp only [hty, ne_eq, not_false_eq_true, if_true]
  · intro hnone hp
    have hfound : (RType.struct sname spkg fields promoted).FieldByName "Element"
        = .ok none := by
      simp only [RType.FieldByName, find_field_none fields "Element" hnone, hp, ite_self]
    rw [testConstructorFunction_lookup camelCaseToKebab fname ins pname sname spkg fields
      promoted none hfound]

/-- C5 (amended) at `MyElement` (tag `my-element`, accepted), at `Foo` (tag
`foo`, the two-words error), at `MyElement struct { Base }` where `Base` embeds
the base type (accepted), and at `MyElement struct { *golymer.Element }` and
`MyElement struct { E }` (the embedded-Element error). -/
theorem testConstructorFunction_nil_iff_hyphen_witness :
    specCamelCaseToKebab "MyElement" = "my-element"
    ∧ testConstructorFunction specCamelCaseToKebab (constructorOf myElementType) = .ok none
    ∧ specCamelCaseToKebab "Foo" = "foo"
    ∧ testConstructorFunction specCamelCaseToKebab (constructorOf fooType)
        = .ok (some .nameNotTwoWords)
    ∧ testConstructorFunction specCamelCaseToKebab (constructorOf nestedEmbeddedType) = .ok none
    ∧ testConstructorFunction specCamelCaseToKebab (constructorOf pointerEmbeddedType)
        = .ok (some .noEmbeddedElement)
    ∧ testConstructorFunction specCamelCaseToKebab (constructorOf aliasEmbeddedType)
        = .ok (some .noEmbeddedElement) :=
  ⟨by decide,
   ((testConstructorFunction_nil_iff_hyphen specCamelCaseToKebab "" [] "" "MyElement" "main"
      [.mk "Element" "" elementType true] (lookupField (elementFields ++ jsObjectFields))
      (by simp [fieldNamesUnique, StructField.Name])).1 (Or.inl rfl)).1.2 (by decide),
   by decide,
   ((testConstructorFunction_nil_iff_hyphen specCamelCaseToKebab "" [] "" "Foo" "main"
      [.mk "Element" "" elementType true] (lookupField (elementFields ++ jsObjectFields))
      (by simp [fieldNamesUnique, StructField.Name])).1 (Or.inl rfl)).2 (by decide),
   ((testConstructorFunction_nil_iff_hyphen specCamelCaseToKebab "" [] "" "MyElement" "main"
      nestedEmbeddedFields
      (lookupField (.mk "Element" "" elementType true :: elementFields ++ jsObjectFields))
      (by simp [fieldNamesUnique, nestedEmbeddedFields, StructField.Name])).1
        (Or.inr rfl)).1.2 (by decide),
   (testConstructorFunction_nil_iff_hyphen specCamelCaseToKebab "" [] "" "MyElement" "main"
      pointerEmbeddedFields (lookupField (elementFields ++ jsObjectFields))
      (by simp [fieldNamesUnique, pointerEmbeddedFields, StructField.Name])).2.1 rfl,
   (testConstructorFunction_nil_iff_hyphen specCamelCaseToKebab "" [] "" "MyElement" "main"
      aliasEmbeddedFields (lookupField (elementFields ++ jsObjectFields))
      (by simp [fieldNamesUnique, aliasEmbeddedFields, StructField.Name])).2.2
        (by simp [aliasEmbeddedFields, StructField.Name]) rfl⟩
/-! ## Field introspection and the observed attributes -/

theorem getStructFields_loop_struct (sname spkg : String) (fields : List StructField)
    (promoted : String → Option StructField) (todo i : Nat) (acc : List StructField)
    (h : i + todo = fields.length) :
    getStructFields.loop (.struct sname spkg fields promoted) todo i acc
      = .ok (acc ++ fields.drop i) := by
  induction todo generalizing i acc with
  | zero =>
    have hi : fields.length ≤ i := by omega
    simp [getStructFields.loop, List.drop_eq_nil_of_le hi]
  | succ k ih =>
    have hi : i < fields.length := by omega
    have hget : fields.get? i = some fields[i] := by
      simp [List.getElem?_eq_getElem hi]
    rw [getStructFields.loop]
    simp only [RType.Field, hget]
    rw [ih (i + 1) (acc ++ [fields[i]]) (by omega)]
    rw [List.append_assoc, List.singleton_append, ← List.drop_eq_getElem_cons hi]

theorem getStructFields_struct (sname spkg : String) (fields : List StructField)
    (promoted : String → Option StructField) :
    getStructFields (.struct sname spkg fields promoted) = .ok fields := by
  unfold getStructFields
  simp only [RType.NumField]
  rw [getStructFields_loop_struct sname spkg fields promoted fields.length 0 [] (by omega)]
  simp

theorem observedAttributes_foldl (camelCaseToKebab : String → String)
    (fields : List StructField) (acc : List String) :
    fields.foldl
        (fun observedAttributes field =>
          if field.PkgPath ≠ "" then observedAttributes
          else observedAttributes ++ [camelCaseToKebab field.Name])
        acc
      = acc ++ (fields.filter (fun fld => fld.PkgPath = "")).map
          (fun fld => camelCaseToKebab fld.Name) := by
  induction fields generalizing acc with
  | nil => simp
  | cons a rest ih =>
    rw [List.foldl_cons, ih]
    by_cases ha : a.PkgPath = ""
    · simp [ha, List.filter_cons]
    · simp [ha, List.filter_cons]

theorem observedAttributes_eq (camelCaseToKebab : String → String)
    (fields : List StructField) :
    observedAttributes camelCaseToKebab fields
      = (fields.filter (fun fld => fld.PkgPath = "")).map
          (fun fld => camelCaseToKebab fld.Name) := by
  unfold observedAttributes
  rw [observedAttributes_foldl]
  simp

theorem observedAttributesGetter_struct (camelCaseToKebab : String → String)
    (fname : String) (ins : List RType) (pname sname spkg : String)
    (fields : List StructField) (promoted : String → Option StructField) :
    Define.observedAttributesGetter camelCaseToKebab
        (some (.func fname ins [.ptr pname (.struct sname spkg fields promoted)]))
      = .ok ((fields.filter (fun fld => fld.PkgPath = "")).map
          (fun fld => camelCaseToKebab fld.Name)) := by
  have hT : resultElemType (some (.func fname ins [.ptr pname (.struct sname spkg fields promoted)]))
      = .ok (.struct sname spkg fields promoted) := rfl
  simp only [Define.observedAttributesGetter, hT, getStructFields_struct,
    observedAttributes_eq]

/-- C2 (as stated it fails): for `MyWidget struct { golymer.Element; Label string; count int }`,
which the validator accepts, the `observedAttributes` getter returns `element`
and `label`, not `label` alone: the embedded `Element` field is not filtered out. -/
theorem observedAttributes_keeps_embedded_element :
    testConstructorFunction specCamelCaseToKebab (constructorOf myWidgetType) = .ok none
    ∧ getStructFields myWidgetType = .ok (.mk "Element" "" elementType true :: widgetUserFields)
    ∧ Define.observedAttributesGetter specCamelCaseToKebab (constructorOf myWidgetType)
        = .ok ["element", "label"]
    ∧ Define.observedAttributesGetter specCamelCaseToKebab (constructorOf myWidgetType)
        ≠ .ok ["label"] := by
  have h : Define.observedAttributesGetter specCamelCaseToKebab (constructorOf myWidgetType)
      = .ok ["element", "label"] := rfl
  refine ⟨rfl, rfl, h, ?_⟩
  rw [h]
  intro hc
  simp at hc

/-- C2 (amended): for every constructor the validator accepts, the result is a
pointer to a struct type; `getStructFields` returns all the fields the struct
type declares, in declaration order, the embedded ones included; and the
`observedAttributes` getter of `Define` returns the kebab-case names of the
exported ones among the declared fields, in declaration order, no unexported
field included.  The embedded `Element` field is exported and is not filtered
out: when the struct embeds `golymer.Element` its kebab-case name is in the
list, and when it is declared first the list begins with it. -/
theorem observedAttributes_exported_fields (camelCaseToKebab : String → String) (f : Iface)
    (hok : testConstructorFunction camelCaseToKebab f = .ok none) :
    ∃ fname ins pname sname spkg fields promoted,
      f = some (.func fname ins [.ptr pname (.struct sname spkg fields promoted)])
      ∧ getStructFields (.struct sname spkg fields promoted) = .ok fields
      ∧ Define.observedAttributesGetter camelCaseToKebab f
          = .ok ((fields.filter (fun fld => fld.PkgPath = "")).map
              (fun fld => camelCaseToKebab fld.Name))
      ∧ (∀ l, Define.observedAttributesGetter camelCaseToKebab f = .ok l →
          ∀ a ∈ l, ∃ g ∈ fields, g.PkgPath = "" ∧ a = camelCaseToKebab g.Name)
      ∧ (embedsElement fields = true →
          ∃ l, Define.observedAttributesGetter camelCaseToKebab f = .ok l
            ∧ camelCaseToKebab "Element" ∈ l)
      ∧ (∀ T rest, fields = .mk "Element" "" T true :: rest →
          Define.observedAttributesGetter camelCaseToKebab f
            = .ok (camelCaseToKebab "Element"
                :: (rest.filter (fun fld => fld.PkgPath = "")).map
                    (fun fld => camelCaseToKebab fld.Name))) := by
  obtain ⟨fname, ins, pname, sname, spkg, fields, promoted, rfl⟩ :=
    testConstructorFunction_nil_shape camelCaseToKebab f hok
  have hg := observedAttributesGetter_struct camelCaseToKebab fname ins pname sname spkg
    fields promoted
  refine ⟨fname, ins, pname, sname, spkg, fields, promoted, rfl,
    getStructFields_struct sname spkg fields promoted, hg, ?_, ?_, ?_⟩
  · intro l hl a hmem
    rw [hg] at hl
    cases hl
    obtain ⟨g, hg1, hgn⟩ := List.mem_map.1 hmem
    have hg2 := List.mem_filter.1 hg1
    exact ⟨g, hg2.1, by simpa using hg2.2, hgn.symm⟩
  · intro hemb
    obtain ⟨fld, hmem, hfld⟩ := List.any_eq_true.1 hemb
    simp only [Bool.and_eq_true, beq_iff_eq] at hfld
    obtain ⟨⟨⟨⟨hname, hpkg⟩, _⟩, _⟩, _⟩ := hfld
    refine ⟨_, hg, List.mem_map.2 ⟨fld, List.mem_filter.2 ⟨hmem, by simpa using hpkg⟩, ?_⟩⟩
    rw [hname]
  · intro T rest hfields
    rw [hg, hfields]
    simp [List.filter_cons, StructField.PkgPath, StructField.Name]

/-- C2 (amended) at the constructor of `MyWidget`: the getter returns
`element` and `label`. -/
theorem observedAttributes_exported_fields_witness :
    getStructFields myWidgetType
      = .ok [.mk "Element" "" elementType true,
             .mk "Label" "" (.other .String "string") false,
             .mk "count" "main" (.other .Int "int") false]
    ∧ Define.observedAttributesGetter specCamelCaseToKebab (constructorOf myWidgetType)
        = .ok ["element", "label"] := by
  obtain ⟨fname, ins, pname, sname, spkg, fields, promoted, hshape, hfields, _, _, _, hfirst⟩ :=
    observedAttributes_exported_fields specCamelCaseToKebab (constructorOf myWidgetType) rfl
  simp only [constructorOf, myWidgetType, componentType, Option.some.injEq, RType.func.injEq,
    List.cons.injEq, RType.ptr.injEq, RType.struct.injEq, and_true, true_and] at hshape
  obtain ⟨_, _, _, rfl, rfl, rfl, rfl⟩ := hshape
  refine ⟨hfields, ?_⟩
  rw [hfirst elementType widgetUserFields rfl]
  rfl
/-! ## The host calls -/

theorem thenDo_ok_iff {α β : Type} (x : Except Panic α × Host)
    (k : α → Host → Except Panic β × Host) (b : β) (h2 : Host) :
    thenDo x k = (.ok b, h2) ↔ ∃ a h1, x = (.ok a, h1) ∧ k a h1 = (.ok b, h2) := by
  rcases x with ⟨r, h1⟩
  cases r with
  | error p => simp [thenDo]
  | ok a =>
    simp only [thenDo]
    constructor
    · intro e
      exact ⟨a, h1, rfl, e⟩
    · rintro ⟨a2, h3, e1, e2⟩
      simp only [Prod.mk.injEq, Except.ok.injEq] at e1
      obtain ⟨rfl, rfl⟩ := e1
      exact e2

theorem thenDo_of_error {α β : Type} (x : Except Panic α × Host)
    (k : α → Host → Except Panic β × Host) (p : Panic) (hx : x.1 = .error p) :
    thenDo x k = (.error p, x.2) := by
  rcases x with ⟨r, h1⟩
  cases r with
  | error q =>
    simp only [Except.error.injEq] at hx
    subst hx
    rfl
  | ok a => cases hx

theorem thenDo_of_ok {α β : Type} (x : Except Panic α × Host)
    (k : α → Host → Except Panic β × Host) (a : α) (hx : x.1 = .ok a) :
    thenDo x k = k a x.2 := by
  rcases x with ⟨r, h1⟩
  cases r with
  | error q => cases hx
  | ok a2 =>
    simp only [Except.ok.injEq] at hx
    subst hx
    rfl

theorem Host_call_ok_iff (throws : List (String × HostValue) → HostCall → Option String)
    (h : Host) (call : HostCall) (u : Unit) (h1 : Host) :
    Host.call throws h call = (.ok u, h1)
      ↔ throws h.registry call = none ∧ h1 = h.record call := by
  unfold Host.call
  cases ht : throws h.registry call with
  | none =>
    simp only [Prod.mk.injEq, true_and]
    exact ⟨fun e => e.symm, fun e => e.symm⟩
  | some e => simp

theorem Global_Get_ok_iff (throws : List (String × HostValue) → HostCall → Option String)
    (h : Host) (name : String) (v : HostValue) (h1 : Host) :
    js.Global.Get throws h name = (.ok v, h1)
      ↔ throws h.registry (.globalGet name) = none ∧ v = h.read name
        ∧ h1 = h.record (.globalGet name) := by
  unfold js.Global.Get
  rw [thenDo_ok_iff]
  constructor
  · rintro ⟨u, h2, hc, hk⟩
    obtain ⟨ht, rfl⟩ := (Host_call_ok_iff throws h _ u h2).1 hc
    simp only [Prod.mk.injEq, Except.ok.injEq] at hk
    exact ⟨ht, hk.1.symm, hk.2.symm⟩
  · rintro ⟨ht, rfl, rfl⟩
    exact ⟨(), _, (Host_call_ok_iff throws h _ () _).2 ⟨ht, rfl⟩, rfl⟩

theorem Global_Set_ok_iff (throws : List (String × HostValue) → HostCall → Option String)
    (h : Host) (name : String) (value : HostValue) (u : Unit) (h1 : Host) :
    js.Global.Set throws h name value = (.ok u, h1)
      ↔ throws h.registry (.globalSet name value) = none
        ∧ h1 = { globals := Function.update h.globals name (some value),
                 registry := h.registry, log := h.log ++ [.globalSet name value] } := by
  unfold js.Global.Set
  rw [thenDo_ok_iff]
  constructor
  · rintro ⟨u2, h2, hc, hk⟩
    obtain ⟨ht, rfl⟩ := (Host_call_ok_iff throws h _ u2 h2).1 hc
    simp only [Prod.mk.injEq, Except.ok.injEq] at hk
    exact ⟨ht, hk.2.symm⟩
  · rintro ⟨ht, rfl⟩
    exact ⟨(), _, (Host_call_ok_iff throws h _ () _).2 ⟨ht, rfl⟩, rfl⟩

theorem defineProperty_ok_iff (throws : List (String × HostValue) → HostCall → Option String)
    (h : Host) (object : HostValue) (obj : JSExpr) (ownAccessors : List String)
    (name : String) (get : Closure) (set : Option Closure) (u : Unit) (h1 : Host) :
    Object.defineProperty throws h object obj ownAccessors name get set = (.ok u, h1)
      ↔ throws h.registry (.defineProperty object obj name get set) = none
        ∧ name ∉ ownAccessors
        ∧ h1 = h.record (.defineProperty object obj name get set) := by
  unfold Object.defineProperty
  rw [thenDo_ok_iff]
  constructor
  · rintro ⟨u2, h2, hc, hk⟩
    obtain ⟨ht, rfl⟩ := (Host_call_ok_iff throws h _ u2 h2).1 hc
    by_cases hm : name ∈ ownAccessors
    · simp [hm] at hk
    · simp only [hm, if_false, Prod.mk.injEq] at hk
      exact ⟨ht, hm, hk.2.symm⟩
  · rintro ⟨ht, hm, rfl⟩
    refine ⟨(), _, (Host_call_ok_iff throws h _ () _).2 ⟨ht, rfl⟩, ?_⟩
    simp [hm]

theorem Object_Set_ok_iff (throws : List (String × HostValue) → HostCall → Option String)
    (h : Host) (prototype : JSExpr) (customElementFields : List StructField)
    (name : String) (value : Closure) (u : Unit) (h1 : Host) :
    js.Object.Set throws h prototype customElementFields name value = (.ok u, h1)
      ↔ throws h.registry (.setProperty prototype name value) = none
        ∧ name ∉ customElementFields.map StructField.Name
        ∧ h1 = h.record (.setProperty prototype name value) := by
  unfold js.Object.Set
  rw [thenDo_ok_iff]
  constructor
  · rintro ⟨u2, h2, hc, hk⟩
    obtain ⟨ht, rfl⟩ := (Host_call_ok_iff throws h _ u2 h2).1 hc
    by_cases hm : name ∈ customElementFields.map StructField.Name
    · simp [hm] at hk
    · simp only [hm, if_false, Prod.mk.injEq] at hk
      exact ⟨ht, hm, hk.2.symm⟩
  · rintro ⟨ht, hm, rfl⟩
    refine ⟨(), _, (Host_call_ok_iff throws h _ () _).2 ⟨ht, rfl⟩, ?_⟩
    simp [hm]

theorem define_ok_iff (throws : List (String × HostValue) → HostCall → Option String)
    (h : Host) (registryObject : HostValue) (tag : String) (ctor : HostValue)
    (u : Unit) (h1 : Host) :
    customElements.define throws h registryObject tag ctor = (.ok u, h1)
      ↔ throws h.registry (.customElementsDefine registryObject tag ctor) = none
        ∧ h1 = { globals := h.globals, registry := h.registry ++ [(tag, ctor)],
                 log := h.log ++ [.customElementsDefine registryObject tag ctor] } := by
  unfold customElements.define
  rw [thenDo_ok_iff]
  constructor
  · rintro ⟨u2, h2, hc, hk⟩
    obtain ⟨ht, rfl⟩ := (Host_call_ok_iff throws h _ u2 h2).1 hc
    simp only [Prod.mk.injEq, Except.ok.injEq] at hk
    exact ⟨ht, hk.2.symm⟩
  · rintro ⟨ht, rfl⟩
    exact ⟨(), _, (Host_call_ok_iff throws h _ () _).2 ⟨ht, rfl⟩, rfl⟩

theorem defineAccessors_ok_iff (throws : List (String × HostValue) → HostCall → Option String)
    (object : HostValue) (prototype : JSExpr) (rest : List StructField) (h : Host)
    (defined : List String) (u : Unit) (h1 : Host) :
    Define.defineAccessors throws object prototype h defined rest = (.ok u, h1)
      ↔ (∀ field ∈ rest, throws h.registry (.defineProperty object prototype field.Name
            (.fieldGetter field) (some (.fieldSetter field))) = none)
        ∧ (rest.map StructField.Name).Nodup
        ∧ (∀ field ∈ rest, field.Name ∉ defined)
        ∧ h1 = { globals := h.globals, registry := h.registry,
                 log := h.log ++ rest.map (fun field =>
                   HostCall.defineProperty object prototype field.Name
                     (.fieldGetter field) (some (.fieldSetter field))) } := by
  induction rest generalizing h defined with
  | nil =>
    simp only [Define.defineAccessors, Prod.mk.injEq, List.not_mem_nil, false_implies,
      implies_true, List.map_nil, List.nodup_nil, List.append_nil, true_and]
    constructor
    · intro e
      exact e.symm
    · intro e
      exact e.symm
  | cons a rest ih =>
    rw [Define.defineAccessors, thenDo_ok_iff]
    constructor
    · rintro ⟨u2, h2, hc, hk⟩
      obtain ⟨ht, hm, rfl⟩ := (defineProperty_ok_iff throws h _ _ _ _ _ _ u2 h2).1 hc
      obtain ⟨hall, hnd, hdef, rfl⟩ := (ih _ _).1 hk
      refine ⟨?_, ?_, ?_, ?_⟩
      · intro field hf
        rcases List.mem_cons.1 hf with rfl | hf
        · exact ht
        · exact hall field hf
      · rw [List.map_cons, List.nodup_cons]
        refine ⟨?_, hnd⟩
        intro hmem
        obtain ⟨field, hf, hn⟩ := List.mem_map.1 hmem
        exact hdef field hf (by rw [hn]; exact List.mem_cons_self _ _)
      · intro field hf
        rcases List.mem_cons.1 hf with rfl | hf
        · exact hm
        · exact fun hc2 => hdef field hf (List.mem_cons_of_mem _ hc2)
      · simp [Host.record]
    · rintro ⟨hall, hnd, hdef, rfl⟩
      rw [List.map_cons, List.nodup_cons] at hnd
      refine ⟨(), h.record _, (defineProperty_ok_iff throws h _ _ _ _ _ _ () _).2
        ⟨hall a (List.mem_cons_self _ _), hdef a (List.mem_cons_self _ _), rfl⟩, ?_⟩
      refine (ih _ _).2 ⟨?_, hnd.2, ?_, ?_⟩
      · intro field hf
        exact hall field (List.mem_cons_of_mem _ hf)
      · intro field hf hc2
        rcases List.mem_cons.1 hc2 with hc2 | hc2
        · exact hnd.1 (List.mem_map.2 ⟨field, hf, hc2⟩)
        · exact hdef field (List.mem_cons_of_mem _ hf) hc2
      · simp [Host.record]

theorem setPrototypeCallbacks_ok_iff
    (throws : List (String × HostValue) → HostCall → Option String)
    (h : Host) (prototype : JSExpr) (customElementFields : List StructField)
    (u : Unit) (h1 : Host) :
    setPrototypeCallbacks throws h prototype customElementFields = (.ok u, h1)
      ↔ (throws h.registry (.setProperty prototype "connectedCallback" .connectedCallback) = none
          ∧ throws h.registry
              (.setProperty prototype "disconnectedCallback" .disconnectedCallback) = none
          ∧ throws h.registry
              (.setProperty prototype "attributeChangedCallback" .attributeChangedCallback) = none
          ∧ throws h.registry (.setProperty prototype "adoptedCallback" .adoptedCallback) = none)
        ∧ (∀ slot ∈ callbackSlots, slot ∉ customElementFields.map StructField.Name)
        ∧ h1 = { globals := h.globals, registry := h.registry,
                 log := h.log ++
                   [.setProperty prototype "connectedCallback" .connectedCallback,
                    .setProperty prototype "disconnectedCallback" .disconnectedCallback,
                    .setProperty prototype "attributeChangedCallback" .attributeChangedCallback,
                    .setProperty prototype "adoptedCallback" .adoptedCallback] } := by
  unfold setPrototypeCallbacks
  simp only [thenDo_ok_iff, Object_Set_ok_iff, callbackSlots, List.mem_cons, List.mem_singleton,
    forall_eq_or_imp, forall_eq, List.not_mem_nil, false_implies, implies_true, and_true]
  constructor
  · rintro ⟨u1, g1, ⟨t1, m1, rfl⟩, u2, g2, ⟨t2, m2, rfl⟩, u3, g3, ⟨t3, m3, rfl⟩, t4, m4, rfl⟩
    exact ⟨⟨t1, t2, t3, t4⟩, ⟨m1, m2, m3, m4⟩, by simp [Host.record]⟩
  · rintro ⟨⟨t1, t2, t3, t4⟩, ⟨m1, m2, m3, m4⟩, rfl⟩
    exact ⟨(), _, ⟨t1, m1, rfl⟩, (), _, ⟨t2, m2, rfl⟩, (), _, ⟨t3, m3, rfl⟩, t4, m4,
      by simp [Host.record]⟩
/-! ## Lines 144–199 -/

theorem synthesize_ok_iff (throws : List (String × HostValue) → HostCall → Option String)
    (h : Host) (fname : String) (ins : List RType) (pname sname spkg : String)
    (fields : List StructField) (promoted : String → Option StructField)
    (r : String × HostValue) (h1 : Host) :
    Define.synthesize throws h
        (some (.func fname ins [.ptr pname (.struct sname spkg fields promoted)])) = (.ok r, h1)
      ↔ (∀ call ∈ synthesizeCalls
            (some (.func fname ins [.ptr pname (.struct sname spkg fields promoted)]))
            (h.read "HTMLElement") (h.read "Object") sname fields,
          throws h.registry call = none)
        ∧ (fields.map StructField.Name).Nodup
        ∧ (∀ slot ∈ callbackSlots, slot ∉ fields.map StructField.Name)
        ∧ r = (sname, .goFunc (.elementConstructor sname
            (some (.func fname ins [.ptr pname (.struct sname spkg fields promoted)]))))
        ∧ h1 = { globals := Function.update h.globals sname
                   (some (.goFunc (.elementConstructor sname
                     (some (.func fname ins [.ptr pname (.struct sname spkg fields promoted)]))))),
                 registry := h.registry,
                 log := h.log ++ synthesizeCalls
                   (some (.func fname ins [.ptr pname (.struct sname spkg fields promoted)]))
                   (h.read "HTMLElement") (h.read "Object") sname fields } := by
  have hT : resultElemType (some (.func fname ins [.ptr pname (.struct sname spkg fields promoted)]))
      = .ok (.struct sname spkg fields promoted) := rfl
  have hn : (RType.struct sname spkg fields promoted).Name = sname := rfl
  simp only [Define.synthesize, hT, hn, getStructFields_struct]
  constructor
  · intro hres
    obtain ⟨htmlElement, g1, e1, hres⟩ := (thenDo_ok_iff _ _ _ _).1 hres
    obtain ⟨t1, rfl, rfl⟩ := (Global_Get_ok_iff _ _ _ _ _).1 e1
    obtain ⟨object, g2, e2, hres⟩ := (thenDo_ok_iff _ _ _ _).1 hres
    obtain ⟨t2, rfl, rfl⟩ := (Global_Get_ok_iff _ _ _ _ _).1 e2
    obtain ⟨u3, g3, e3, hres⟩ := (thenDo_ok_iff _ _ _ _).1 hres
    obtain ⟨t3, rfl⟩ := (Global_Set_ok_iff _ _ _ _ _ _).1 e3
    obtain ⟨u4, g4, e4, hres⟩ := (thenDo_ok_iff _ _ _ _).1 hres
    obtain ⟨t4, rfl⟩ := (Host_call_ok_iff _ _ _ _ _).1 e4
    obtain ⟨u5, g5, e5, hres⟩ := (thenDo_ok_iff _ _ _ _).1 hres
    obtain ⟨t5, rfl⟩ := (Host_call_ok_iff _ _ _ _ _).1 e5
    obtain ⟨u6, g6, e6, hres⟩ := (thenDo_ok_iff _ _ _ _).1 hres
    obtain ⟨t6, hnd, _, rfl⟩ := (defineAccessors_ok_iff _ _ _ _ _ _ _ _).1 e6
    obtain ⟨u7, g7, e7, hres⟩ := (thenDo_ok_iff _ _ _ _).1 hres
    obtain ⟨t7, _, rfl⟩ := (defineProperty_ok_iff _ _ _ _ _ _ _ _ _ _).1 e7
    obtain ⟨u8, g8, e8, hres⟩ := (thenDo_ok_iff _ _ _ _).1 hres
    obtain ⟨⟨t8, t9, t10, t11⟩, hslots, rfl⟩ := (setPrototypeCallbacks_ok_iff _ _ _ _ _ _).1 e8
    simp only [Prod.mk.injEq, Except.ok.injEq] at hres
    obtain ⟨rfl, rfl⟩ := hres
    refine ⟨?_, hnd, hslots, rfl, ?_⟩
    · intro call hmem
      simp only [synthesizeCalls, List.mem_append, List.mem_cons, List.mem_map,
        List.mem_singleton, List.not_mem_nil, or_false] at hmem
      rcases hmem with ((rfl | rfl | rfl | rfl | rfl) | ⟨field, hf, rfl⟩) |
        (rfl | rfl | rfl | rfl | rfl)
      · exact t1
      · exact t2
      · exact t3
      · exact t4
      · exact t5
      · exact t6 field hf
      · exact t7
      · exact t8
      · exact t9
      · exact t10
      · exact t11
    · simp [Host.record, synthesizeCalls, Host.read]
  · rintro ⟨hall, hnd, hslots, rfl, rfl⟩
    refine (thenDo_ok_iff _ _ _ _).2 ⟨h.read "HTMLElement", _,
      (Global_Get_ok_iff _ _ _ _ _).2 ⟨hall _ (by simp [synthesizeCalls]), rfl, rfl⟩, ?_⟩
    refine (thenDo_ok_iff _ _ _ _).2 ⟨h.read "Object", _,
      (Global_Get_ok_iff _ _ _ _ _).2 ⟨hall _ (by simp [synthesizeCalls]), rfl, rfl⟩, ?_⟩
    refine (thenDo_ok_iff _ _ _ _).2 ⟨(), _,
      (Global_Set_ok_iff _ _ _ _ _ _).2 ⟨hall _ (by simp [synthesizeCalls]), rfl⟩, ?_⟩
    refine (thenDo_ok_iff _ _ _ _).2 ⟨(), _,
      (Host_call_ok_iff _ _ _ _ _).2 ⟨hall _ (by simp [synthesizeCalls]), rfl⟩, ?_⟩
    refine (thenDo_ok_iff _ _ _ _).2 ⟨(), _,
      (Host_call_ok_iff _ _ _ _ _).2 ⟨hall _ (by simp [synthesizeCalls]), rfl⟩, ?_⟩
    refine (thenDo_ok_iff _ _ _ _).2 ⟨(), _,
      (defineAccessors_ok_iff _ _ _ _ _ _ _ _).2
        ⟨fun field hf => hall _ (by
            simp only [synthesizeCalls, List.mem_append, List.mem_map]
            exact Or.inl (Or.inr ⟨field, hf, rfl⟩)),
          hnd, fun _ _ => List.not_mem_nil _, rfl⟩, ?_⟩
    refine (thenDo_ok_iff _ _ _ _).2 ⟨(), _,
      (defineProperty_ok_iff _ _ _ _ _ _ _ _ _ _).2
        ⟨hall _ (by simp [synthesizeCalls]), List.not_mem_nil _, rfl⟩, ?_⟩
    refine (thenDo_ok_iff _ _ _ _).2 ⟨(), _,
      (setPrototypeCallbacks_ok_iff _ _ _ _ _ _).2
        ⟨⟨hall _ (by simp [synthesizeCalls]), hall _ (by simp [synthesizeCalls]),
          hall _ (by simp [synthesizeCalls]), hall _ (by simp [synthesizeCalls])⟩,
          hslots, rfl⟩, ?_⟩
    simp [Host.record, synthesizeCalls, Host.read]
theorem keeps_refl (sname : String) (h : Host) : Host.keeps sname h h :=
  ⟨rfl, fun _ _ => rfl, fun _ hc _ => hc⟩

theorem keeps_record (sname : String) (h h1 : Host) (call : HostCall)
    (hk : Host.keeps sname h h1) (hc : call.isRegistration = false) :
    Host.keeps sname h (h1.record call) := by
  obtain ⟨hr, hg, hl⟩ := hk
  refine ⟨hr, hg, ?_⟩
  intro c hmem hreg
  simp only [Host.record, List.mem_append, List.mem_singleton] at hmem
  rcases hmem with hmem | rfl
  · exact hl c hmem hreg
  · rw [hc] at hreg
    cases hreg

theorem Host_call_snd (throws : List (String × HostValue) → HostCall → Option String)
    (h : Host) (call : HostCall) : (Host.call throws h call).2 = h.record call := by
  unfold Host.call
  cases throws h.registry call <;> rfl

theorem call_keeps (throws : List (String × HostValue) → HostCall → Option String)
    (sname : String) (h h1 : Host) (call : HostCall)
    (hk : Host.keeps sname h h1) (hc : call.isRegistration = false) :
    Host.keeps sname h (Host.call throws h1 call).2 := by
  rw [Host_call_snd]
  exact keeps_record sname h h1 call hk hc

theorem thenDo_keeps {α β : Type} (sname : String) (h : Host) (x : Except Panic α × Host)
    (k : α → Host → Except Panic β × Host) (hx : Host.keeps sname h x.2)
    (hk : ∀ a h1, x = (.ok a, h1) → Host.keeps sname h (k a h1).2) :
    Host.keeps sname h (thenDo x k).2 := by
  rcases x with ⟨r, h1⟩
  cases r with
  | error p => exact hx
  | ok a => exact hk a h1 rfl

theorem Global_Get_keeps (throws : List (String × HostValue) → HostCall → Option String)
    (sname : String) (h h1 : Host) (name : String) (hk : Host.keeps sname h h1) :
    Host.keeps sname h (js.Global.Get throws h1 name).2 := by
  unfold js.Global.Get
  refine thenDo_keeps sname h _ _ (call_keeps throws sname h h1 _ hk rfl) ?_
  intro u h2 e
  have h3 := call_keeps throws sname h h1 (.globalGet name) hk rfl
  rw [e] at h3
  exact h3

theorem Global_Set_keeps (throws : List (String × HostValue) → HostCall → Option String)
    (sname : String) (h h1 : Host) (value : HostValue) (hk : Host.keeps sname h h1) :
    Host.keeps sname h (js.Global.Set throws h1 sname value).2 := by
  unfold js.Global.Set
  refine thenDo_keeps sname h _ _ (call_keeps throws sname h h1 _ hk rfl) ?_
  intro u h2 e
  have h3 := call_keeps throws sname h h1 (.globalSet sname value) hk rfl
  rw [e] at h3
  obtain ⟨hr, hg, hl⟩ := h3
  refine ⟨hr, ?_, hl⟩
  intro name hname
  simp only [Function.update, hname, dite_false]
  exact hg name hname

theorem defineProperty_keeps (throws : List (String × HostValue) → HostCall → Option String)
    (sname : String) (h h1 : Host) (object : HostValue) (obj : JSExpr)
    (ownAccessors : List String) (name : String) (get : Closure) (set : Option Closure)
    (hk : Host.keeps sname h h1) :
    Host.keeps sname h
      (Object.defineProperty throws h1 object obj ownAccessors name get set).2 := by
  unfold Object.defineProperty
  refine thenDo_keeps sname h _ _ (call_keeps throws sname h h1 _ hk rfl) ?_
  intro u h2 e
  have h3 := call_keeps throws sname h h1 (.defineProperty object obj name get set) hk rfl
  rw [e] at h3
  by_cases hm : name ∈ ownAccessors <;> simp only [hm, if_true, if_false] <;> exact h3

theorem Object_Set_keeps (throws : List (String × HostValue) → HostCall → Option String)
    (sname : String) (h h1 : Host) (prototype : JSExpr)
    (customElementFields : List StructField) (name : String) (value : Closure)
    (hk : Host.keeps sname h h1) :
    Host.keeps sname h
      (js.Object.Set throws h1 prototype customElementFields name value).2 := by
  unfold js.Object.Set
  refine thenDo_keeps sname h _ _ (call_keeps throws sname h h1 _ hk rfl) ?_
  intro u h2 e
  have h3 := call_keeps throws sname h h1 (.setProperty prototype name value) hk rfl
  rw [e] at h3
  by_cases hm : name ∈ customElementFields.map StructField.Name <;>
    simp only [hm, if_true, if_false] <;> exact h3

theorem defineAccessors_keeps (throws : List (String × HostValue) → HostCall → Option String)
    (sname : String) (h : Host) (object : HostValue) (prototype : JSExpr)
    (rest : List StructField) (h1 : Host) (defined : List String)
    (hk : Host.keeps sname h h1) :
    Host.keeps sname h (Define.defineAccessors throws object prototype h1 defined rest).2 := by
  induction rest generalizing h1 defined with
  | nil => exact hk
  | cons a rest ih =>
    rw [Define.defineAccessors]
    refine thenDo_keeps sname h _ _
      (defineProperty_keeps throws sname h h1 _ _ _ _ _ _ hk) ?_
    intro u h2 e
    have h3 := defineProperty_keeps throws sname h h1 object prototype defined a.Name
      (.fieldGetter a) (some (.fieldSetter a)) hk
    rw [e] at h3
    exact ih h2 _ h3

theorem setPrototypeCallbacks_keeps
    (throws : List (String × HostValue) → HostCall → Option String)
    (sname : String) (h h1 : Host) (prototype : JSExpr)
    (customElementFields : List StructField) (hk : Host.keeps sname h h1) :
    Host.keeps sname h (setPrototypeCallbacks throws h1 prototype customElementFields).2 := by
  unfold setPrototypeCallbacks
  refine thenDo_keeps sname h _ _ (Object_Set_keeps throws sname h h1 _ _ _ _ hk) ?_
  intro u2 h2 e2
  have k2 := Object_Set_keeps throws sname h h1 prototype customElementFields
    "connectedCallback" .connectedCallback hk
  rw [e2] at k2
  refine thenDo_keeps sname h _ _ (Object_Set_keeps throws sname h h2 _ _ _ _ k2) ?_
  intro u3 h3 e3
  have k3 := Object_Set_keeps throws sname h h2 prototype customElementFields
    "disconnectedCallback" .disconnectedCallback k2
  rw [e3] at k3
  refine thenDo_keeps sname h _ _ (Object_Set_keeps throws sname h h3 _ _ _ _ k3) ?_
  intro u4 h4 e4
  have k4 := Object_Set_keeps throws sname h h3 prototype customElementFields
    "attributeChangedCallback" .attributeChangedCallback k3
  rw [e4] at k4
  exact Object_Set_keeps throws sname h h4 _ _ _ _ k4

theorem synthesize_keeps (throws : List (String × HostValue) → HostCall → Option String)
    (h : Host) (fname : String) (ins : List RType) (pname sname spkg : String)
    (fields : List StructField) (promoted : String → Option StructField) :
    Host.keeps sname h (Define.synthesize throws h
      (some (.func fname ins [.ptr pname (.struct sname spkg fields promoted)]))).2 := by
  have hT : resultElemType (some (.func fname ins [.ptr pname (.struct sname spkg fields promoted)]))
      = .ok (.struct sname spkg fields promoted) := rfl
  have hn : (RType.struct sname spkg fields promoted).Name = sname := rfl
  simp only [Define.synthesize, hT, hn, getStructFields_struct]
  have k0 := keeps_refl sname h
  refine thenDo_keeps sname h _ _ (Global_Get_keeps throws sname h h _ k0) ?_
  intro htmlElement g1 e1
  have k1 := Global_Get_keeps throws sname h h "HTMLElement" k0
  rw [e1] at k1
  refine thenDo_keeps sname h _ _ (Global_Get_keeps throws sname h g1 _ k1) ?_
  intro object g2 e2
  have k2 := Global_Get_keeps throws sname h g1 "Object" k1
  rw [e2] at k2
  refine thenDo_keeps sname h _ _ (Global_Set_keeps throws sname h g2 _ k2) ?_
  intro u3 g3 e3
  have k3 := Global_Set_keeps throws sname h g2 (.goFunc (.elementConstructor sname
    (some (.func fname ins [.ptr pname (.struct sname spkg fields promoted)])))) k2
  rw [e3] at k3
  refine thenDo_keeps sname h _ _ (call_keeps throws sname h g3 _ k3 rfl) ?_
  intro u4 g4 e4
  have k4 := call_keeps throws sname h g3 (.setPrototypeOf object
    (.prototypeOf (.goFunc (.elementConstructor sname
      (some (.func fname ins [.ptr pname (.struct sname spkg fields promoted)])))))
    (.prototypeOf htmlElement)) k3 rfl
  simp only [Object.setPrototypeOf] at e4
  rw [e4] at k4
  refine thenDo_keeps sname h _ _ (call_keeps throws sname h g4 _ k4 rfl) ?_
  intro u5 g5 e5
  have k5 := call_keeps throws sname h g4 (.setPrototypeOf object
    (.val (.goFunc (.elementConstructor sname
      (some (.func fname ins [.ptr pname (.struct sname spkg fields promoted)])))))
    (.val htmlElement)) k4 rfl
  simp only [Object.setPrototypeOf] at e5
  rw [e5] at k5
  refine thenDo_keeps sname h _ _ (defineAccessors_keeps throws sname h _ _ _ g5 _ k5) ?_
  intro u6 g6 e6
  have k6 := defineAccessors_keeps throws sname h object
    (.prototypeOf (.goFunc (.elementConstructor sname
      (some (.func fname ins [.ptr pname (.struct sname spkg fields promoted)])))))
    fields g5 [] k5
  rw [e6] at k6
  refine thenDo_keeps sname h _ _ (defineProperty_keeps throws sname h g6 _ _ _ _ _ _ k6) ?_
  intro u7 g7 e7
  have k7 := defineProperty_keeps throws sname h g6 object
    (.val (.goFunc (.elementConstructor sname
      (some (.func fname ins [.ptr pname (.struct sname spkg fields promoted)])))))
    [] "observedAttributes" (.observedAttributesGetter fields) none k6
  rw [e7] at k7
  refine thenDo_keeps sname h _ _ (setPrototypeCallbacks_keeps throws sname h g7 _ _ k7) ?_
  intro u8 g8 e8
  have k8 := setPrototypeCallbacks_keeps throws sname h g7
    (.prototypeOf (.goFunc (.elementConstructor sname
      (some (.func fname ins [.ptr pname (.struct sname spkg fields promoted)])))))
    fields k7
  rw [e8] at k8
  exact k8
/-! ## Define -/

theorem Define_ok_iff (camelCaseToKebab : String → String)
    (throws : List (String × HostValue) → HostCall → Option String)
    (h : Host) (fname : String) (ins : List RType) (pname sname spkg : String)
    (fields : List StructField) (promoted : String → Option StructField)
    (hok : testConstructorFunction camelCaseToKebab
      (some (.func fname ins [.ptr pname (.struct sname spkg fields promoted)])) = .ok none)
    (h1 : Host) :
    Define camelCaseToKebab throws h
        (some (.func fname ins [.ptr pname (.struct sname spkg fields promoted)]))
        = (.ok none, h1)
      ↔ (∀ call ∈ Define.calls camelCaseToKebab h
            (some (.func fname ins [.ptr pname (.struct sname spkg fields promoted)]))
            sname fields,
          throws h.registry call = none)
        ∧ (fields.map StructField.Name).Nodup
        ∧ (∀ slot ∈ callbackSlots, slot ∉ fields.map StructField.Name)
        ∧ h1 = { globals := Function.update h.globals sname
                   (some (.goFunc (.elementConstructor sname
                     (some (.func fname ins [.ptr pname (.struct sname spkg fields promoted)]))))),
                 registry := h.registry ++ [(camelCaseToKebab sname,
                   .goFunc (.elementConstructor sname
                     (some (.func fname ins [.ptr pname (.struct sname spkg fields promoted)]))))],
                 log := h.log ++ Define.calls camelCaseToKebab h
                   (some (.func fname ins [.ptr pname (.struct sname spkg fields promoted)]))
                   sname fields } := by
  unfold Define
  rw [hok]
  simp only
  constructor
  · intro hres
    obtain ⟨synthesized, g1, e1, hres⟩ := (thenDo_ok_iff _ _ _ _).1 hres
    obtain ⟨hall, hnd, hslots, rfl, rfl⟩ := (synthesize_ok_iff _ _ _ _ _ _ _ _ _ _ _).1 e1
    obtain ⟨registryObject, g2, e2, hres⟩ := (thenDo_ok_iff _ _ _ _).1 hres
    obtain ⟨t2, rfl, rfl⟩ := (Global_Get_ok_iff _ _ _ _ _).1 e2
    obtain ⟨u3, g3, e3, hres⟩ := (thenDo_ok_iff _ _ _ _).1 hres
    obtain ⟨t3, rfl⟩ := (define_ok_iff _ _ _ _ _ _ _).1 e3
    simp only [Prod.mk.injEq, true_and] at hres
    subst hres
    refine ⟨?_, hnd, hslots, ?_⟩
    · intro call hmem
      simp only [Define.calls, registrationCalls, List.mem_append, List.mem_cons,
        List.mem_singleton, List.not_mem_nil, or_false] at hmem
      rcases hmem with hmem | rfl | rfl
      · exact hall call hmem
      · exact t2
      · exact t3
    · simp [Host.record, Define.calls, registrationCalls, Host.read]
  · rintro ⟨hall, hnd, hslots, rfl⟩
    refine (thenDo_ok_iff _ _ _ _).2 ⟨_, _,
      (synthesize_ok_iff _ _ _ _ _ _ _ _ _ _ _).2
        ⟨fun call hmem => hall call (by
            simp only [Define.calls, List.mem_append]
            exact Or.inl hmem),
          hnd, hslots, rfl, rfl⟩, ?_⟩
    refine (thenDo_ok_iff _ _ _ _).2 ⟨_, _,
      (Global_Get_ok_iff _ _ _ _ _).2
        ⟨hall _ (by simp [Define.calls, registrationCalls]), rfl, rfl⟩, ?_⟩
    refine (thenDo_ok_iff _ _ _ _).2 ⟨(), _,
      (define_ok_iff _ _ _ _ _ _ _).2
        ⟨hall _ (by simp [Define.calls, registrationCalls, Host.read, Host.record]), rfl⟩, ?_⟩
    simp [Host.record, Define.calls, registrationCalls, Host.read]

theorem define_error_registry (throws : List (String × HostValue) → HostCall → Option String)
    (h : Host) (registryObject : HostValue) (tag : String) (ctor : HostValue)
    (p : Panic) (h1 : Host)
    (e : customElements.define throws h registryObject tag ctor = (.error p, h1)) :
    h1.registry = h.registry := by
  unfold customElements.define Host.call at e
  cases ht : throws h.registry (.customElementsDefine registryObject tag ctor) with
  | none => simp [ht, thenDo] at e
  | some exception =>
    simp only [ht, thenDo, Prod.mk.injEq] at e
    rw [← e.2]
    rfl

theorem Define_nil_or_panic (camelCaseToKebab : String → String)
    (throws : List (String × HostValue) → HostCall → Option String)
    (h : Host) (fname : String) (ins : List RType) (pname sname spkg : String)
    (fields : List StructField) (promoted : String → Option StructField)
    (hok : testConstructorFunction camelCaseToKebab
      (some (.func fname ins [.ptr pname (.struct sname spkg fields promoted)])) = .ok none) :
    (Define camelCaseToKebab throws h
        (some (.func fname ins [.ptr pname (.struct sname spkg fields promoted)]))).1 = .ok none
    ∨ ∃ p, (Define camelCaseToKebab throws h
        (some (.func fname ins [.ptr pname (.struct sname spkg fields promoted)]))).1 = .error p
      ∧ (Define camelCaseToKebab throws h
        (some (.func fname ins [.ptr pname (.struct sname spkg fields promoted)]))).2.registry
        = h.registry := by
  unfold Define
  rw [hok]
  simp only
  have k1 := synthesize_keeps throws h fname ins pname sname spkg fields promoted
  rcases hS : Define.synthesize throws h
    (some (.func fname ins [.ptr pname (.struct sname spkg fields promoted)])) with ⟨r1, g1⟩
  rw [hS] at k1
  cases r1 with
  | error p => exact Or.inr ⟨p, rfl, k1.1⟩
  | ok synthesized =>
    have k2 := Global_Get_keeps throws sname h g1 "customElements" k1
    simp only [thenDo]
    rcases hG : js.Global.Get throws g1 "customElements" with ⟨r2, g2⟩
    rw [hG] at k2
    cases r2 with
    | error p => exact Or.inr ⟨p, rfl, k2.1⟩
    | ok registryObject =>
      simp only
      rcases hD : customElements.define throws g2 registryObject
        (camelCaseToKebab synthesized.1) synthesized.2 with ⟨r3, g3⟩
      cases r3 with
      | error p =>
        refine Or.inr ⟨p, rfl, ?_⟩
        have e3 := define_error_registry throws g2 _ _ _ p g3 hD
        exact e3.trans k2.1
      | ok u => exact Or.inl rfl
theorem Global_Get_snd (throws : List (String × HostValue) → HostCall → Option String)
    (h : Host) (name : String) :
    (js.Global.Get throws h name).2 = h.record (.globalGet name) := by
  unfold js.Global.Get Host.call
  cases throws h.registry (.globalGet name) <;> rfl

theorem define_snd_log (throws : List (String × HostValue) → HostCall → Option String)
    (h : Host) (registryObject : HostValue) (tag : String) (ctor : HostValue) :
    (customElements.define throws h registryObject tag ctor).2.log
      = h.log ++ [.customElementsDefine registryObject tag ctor] := by
  unfold customElements.define Host.call
  cases throws h.registry (.customElementsDefine registryObject tag ctor) <;> rfl

/-- C9 (as stated it fails): `MyElement` is accepted, the global `MyElement` is
unbound on a fresh page, and after lines 144–199, before `customElements.define`
is called, it is bound to the synthesized constructor: the global namespace is
not what it was when `Define` was entered. -/
theorem Define_binds_global_before_registration :
    testConstructorFunction specCamelCaseToKebab (constructorOf myElementType) = .ok none
    ∧ freshHost.globals "MyElement" = none
    ∧ (Define.synthesize browserThrows freshHost (constructorOf myElementType)).2.globals
        "MyElement"
        = some (.goFunc (.elementConstructor "MyElement" (constructorOf myElementType)))
    ∧ (Define.synthesize browserThrows freshHost (constructorOf myElementType)).2.globals
        ≠ freshHost.globals := by
  refine ⟨rfl, rfl, rfl, ?_⟩
  intro h
  have h1 : (Define.synthesize browserThrows freshHost
      (constructorOf myElementType)).2.globals "MyElement"
      = freshHost.globals "MyElement" := by rw [h]
  have h2 : (Define.synthesize browserThrows freshHost
      (constructorOf myElementType)).2.globals "MyElement"
      = some (.goFunc (.elementConstructor "MyElement" (constructorOf myElementType))) := rfl
  have h3 : freshHost.globals "MyElement" = none := rfl
  rw [h2, h3] at h1
  cases h1

/-- C9 (amended): for every constructor the validator accepts, on every page
and whatever the host lets through, the part of `Define` before the
registration (lines 144–199) leaves the custom-element registry as it was,
makes no call of `customElements.define`, and changes no global but the one
named by the struct type; when it runs through, that global is bound to the
synthesized constructor and the calls made are the calls of lines 144–199 in
order; when a call in it throws, `Define` panics there and the registration is
not reached; the registration call, when made, is the last call of `Define`. -/
theorem Define_before_registration (camelCaseToKebab : String → String)
    (throws : List (String × HostValue) → HostCall → Option String)
    (h : Host) (f : Iface)
    (hok : testConstructorFunction camelCaseToKebab f = .ok none) :
    ∃ fname ins pname sname spkg fields promoted,
      f = some (.func fname ins [.ptr pname (.struct sname spkg fields promoted)])
      ∧ (Define.synthesize throws h f).2.registry = h.registry
      ∧ (∀ name, name ≠ sname → (Define.synthesize throws h f).2.globals name = h.globals name)
      ∧ (∀ call ∈ (Define.synthesize throws h f).2.log,
          call.isRegistration = true → call ∈ h.log)
      ∧ (∀ r, (Define.synthesize throws h f).1 = .ok r →
          r = (sname, .goFunc (.elementConstructor sname f))
          ∧ (Define.synthesize throws h f).2.globals
              = Function.update h.globals sname (some (.goFunc (.elementConstructor sname f)))
          ∧ (Define.synthesize throws h f).2.log
              = h.log ++ synthesizeCalls f (h.read "HTMLElement") (h.read "Object") sname fields)
      ∧ (∀ p, (Define.synthesize throws h f).1 = .error p →
          Define camelCaseToKebab throws h f = (.error p, (Define.synthesize throws h f).2))
      ∧ (∀ r, (Define.synthesize throws h f).1 = .ok r →
          (Define camelCaseToKebab throws h f).2.log
              = (Define.synthesize throws h f).2.log ++ [.globalGet "customElements"]
          ∨ (Define camelCaseToKebab throws h f).2.log
              = (Define.synthesize throws h f).2.log
                ++ registrationCalls f ((Define.synthesize throws h f).2.read "customElements")
                    sname (camelCaseToKebab sname)) := by
  obtain ⟨fname, ins, pname, sname, spkg, fields, promoted, rfl⟩ :=
    testConstructorFunction_nil_shape camelCaseToKebab f hok
  have hk := synthesize_keeps throws h fname ins pname sname spkg fields promoted
  refine ⟨fname, ins, pname, sname, spkg, fields, promoted, rfl, hk.1, hk.2.1, hk.2.2,
    ?_, ?_, ?_⟩
  · intro r hr
    have hpair : Define.synthesize throws h
        (some (.func fname ins [.ptr pname (.struct sname spkg fields promoted)]))
        = (.ok r, (Define.synthesize throws h
            (some (.func fname ins [.ptr pname (.struct sname spkg fields promoted)]))).2) := by
      rw [← hr]
    obtain ⟨_, _, _, hres, hstate⟩ := (synthesize_ok_iff _ _ _ _ _ _ _ _ _ _ _).1 hpair
    rw [hstate]
    exact ⟨hres, rfl, rfl⟩
  · intro p hp
    unfold Define
    rw [hok]
    simp only
    exact thenDo_of_error _ _ p hp
  · intro r hr
    have hpair : Define.synthesize throws h
        (some (.func fname ins [.ptr pname (.struct sname spkg fields promoted)]))
        = (.ok r, (Define.synthesize throws h
            (some (.func fname ins [.ptr pname (.struct sname spkg fields promoted)]))).2) := by
      rw [← hr]
    obtain ⟨_, _, _, hres, _⟩ := (synthesize_ok_iff _ _ _ _ _ _ _ _ _ _ _).1 hpair
    unfold Define
    rw [hok]
    simp only
    rw [thenDo_of_ok _ _ r hr]
    generalize (Define.synthesize throws h
      (some (.func fname ins [.ptr pname (.struct sname spkg fields promoted)]))).2 = g1
    have hG := Global_Get_snd throws g1 "customElements"
    rcases hGet : js.Global.Get throws g1 "customElements" with ⟨r2, g2⟩
    rw [hGet] at hG
    simp only at hG
    subst hG
    cases r2 with
    | error p => exact Or.inl rfl
    | ok registryObject =>
      obtain ⟨_, hro, _⟩ := (Global_Get_ok_iff _ _ _ _ _).1 hGet
      refine Or.inr ?_
      simp only [thenDo]
      have hD := define_snd_log throws (g1.record (.globalGet "customElements")) registryObject
        (camelCaseToKebab r.1) r.2
      rcases hDef : customElements.define throws (g1.record (.globalGet "customElements"))
        registryObject (camelCaseToKebab r.1) r.2 with ⟨r3, g3⟩
      rw [hDef] at hD
      simp only at hD
      have hlog : g3.log = g1.log ++ registrationCalls
          (some (.func fname ins [.ptr pname (.struct sname spkg fields promoted)]))
          (g1.read "customElements") sname (camelCaseToKebab sname) := by
        rw [hD, hro, hres]
        simp [Host.record, registrationCalls]
      cases r3 with
      | error p => exact hlog
      | ok u => exact hlog

/-- C9 (amended) at the constructor of `MyElement` on a fresh page. -/
theorem Define_before_registration_witness :
    (Define.synthesize browserThrows freshHost (constructorOf myElementType)).1
        = .ok ("MyElement", .goFunc (.elementConstructor "MyElement"
            (constructorOf myElementType)))
    ∧ ∃ fname ins pname sname spkg fields promoted,
      constructorOf myElementType
        = some (.func fname ins [.ptr pname (.struct sname spkg fields promoted)])
      ∧ (Define.synthesize browserThrows freshHost (constructorOf myElementType)).2.registry
          = freshHost.registry
      ∧ (∀ name, name ≠ sname →
          (Define.synthesize browserThrows freshHost (constructorOf myElementType)).2.globals name
            = freshHost.globals name)
      ∧ (∀ call ∈ (Define.synthesize browserThrows freshHost (constructorOf myElementType)).2.log,
          call.isRegistration = true → call ∈ freshHost.log)
      ∧ (∀ r, (Define.synthesize browserThrows freshHost (constructorOf myElementType)).1
            = .ok r →
          r = (sname, .goFunc (.elementConstructor sname (constructorOf myElementType)))
          ∧ (Define.synthesize browserThrows freshHost (constructorOf myElementType)).2.globals
              = Function.update freshHost.globals sname
                  (some (.goFunc (.elementConstructor sname (constructorOf myElementType))))
          ∧ (Define.synthesize browserThrows freshHost (constructorOf myElementType)).2.log
              = freshHost.log ++ synthesizeCalls (constructorOf myElementType)
                  (freshHost.read "HTMLElement") (freshHost.read "Object") sname fields)
      ∧ (∀ p, (Define.synthesize browserThrows freshHost (constructorOf myElementType)).1
            = .error p →
          Define specCamelCaseToKebab browserThrows freshHost (constructorOf myElementType)
            = (.error p,
                (Define.synthesize browserThrows freshHost (constructorOf myElementType)).2))
      ∧ (∀ r, (Define.synthesize browserThrows freshHost (constructorOf myElementType)).1
            = .ok r →
          (Define specCamelCaseToKebab browserThrows freshHost
              (constructorOf myElementType)).2.log
              = (Define.synthesize browserThrows freshHost (constructorOf myElementType)).2.log
                ++ [.globalGet "customElements"]
          ∨ (Define specCamelCaseToKebab browserThrows freshHost
              (constructorOf myElementType)).2.log
              = (Define.synthesize browserThrows freshHost (constructorOf myElementType)).2.log
                ++ registrationCalls (constructorOf myElementType)
                    ((Define.synthesize browserThrows freshHost
                      (constructorOf myElementType)).2.read "customElements")
                    sname (specCamelCaseToKebab sname)) :=
  ⟨rfl, Define_before_registration specCamelCaseToKebab browserThrows freshHost
    (constructorOf myElementType) rfl⟩

/-- C10 (as stated it fails): on a page where the tag `my-element` is already
defined, `testConstructorFunction` returns nil for the constructor of
`MyElement`, yet `Define` does not return nil: the registry throws and `Define`
panics with the host's `NotSupportedError`. -/
theorem Define_faults_on_taken_tag :
    testConstructorFunction specCamelCaseToKebab (constructorOf myElementType) = .ok none
    ∧ (Define specCamelCaseToKebab browserThrows hostWithMyElement
        (constructorOf myElementType)).1 = .error (.jsError "NotSupportedError")
    ∧ (Define specCamelCaseToKebab browserThrows hostWithMyElement
        (constructorOf myElementType)).1 ≠ .ok none := by
  have h2 : (Define specCamelCaseToKebab browserThrows hostWithMyElement
      (constructorOf myElementType)).1 = .error (.jsError "NotSupportedError") := rfl
  refine ⟨rfl, h2, ?_⟩
  intro h
  rw [h2] at h
  cases h

/-- C10 (amended): when `testConstructorFunction` returns an error, `Define`
returns that same error and leaves the page as it was, its call log included:
no host call is made.  When it returns nil, the constructor returns a pointer
to a struct, and `Define` returns nil exactly when every host call it makes goes
through: the host throws on none of the calls of `Define`, the registration
included, no two fields of the struct carry one name, and no field is named
like a callback slot; the registry then gains the tag with the synthesized
constructor.  Otherwise `Define` panics and the registry is as it was. -/
theorem Define_result (camelCaseToKebab : String → String)
    (throws : List (String × HostValue) → HostCall → Option String) (h : Host) :
    (∀ f err, testConstructorFunction camelCaseToKebab f = .ok (some err) →
      Define camelCaseToKebab throws h f = (.ok (some err), h))
    ∧ (∀ f, testConstructorFunction camelCaseToKebab f = .ok none →
      ∃ fname ins pname sname spkg fields promoted,
        f = some (.func fname ins [.ptr pname (.struct sname spkg fields promoted)])
        ∧ ((Define camelCaseToKebab throws h f).1 = .ok none
            ↔ (∀ call ∈ Define.calls camelCaseToKebab h f sname fields,
                  throws h.registry call = none)
              ∧ (fields.map StructField.Name).Nodup
              ∧ (∀ slot ∈ callbackSlots, slot ∉ fields.map StructField.Name))
        ∧ ((Define camelCaseToKebab throws h f).1 = .ok none →
            (Define camelCaseToKebab throws h f).2.registry
              = h.registry ++ [(camelCaseToKebab sname, .goFunc (.elementConstructor sname f))]
            ∧ (Define camelCaseToKebab throws h f).2.log
              = h.log ++ Define.calls camelCaseToKebab h f sname fields)
        ∧ ((Define camelCaseToKebab throws h f).1 ≠ .ok none →
            ∃ p, (Define camelCaseToKebab throws h f).1 = .error p
              ∧ (Define camelCaseToKebab throws h f).2.registry = h.registry)) := by
  constructor
  · intro f err herr
    unfold Define
    rw [herr]
  · intro f hok
    obtain ⟨fname, ins, pname, sname, spkg, fields, promoted, rfl⟩ :=
      testConstructorFunction_nil_shape camelCaseToKebab f hok
    refine ⟨fname, ins, pname, sname, spkg, fields, promoted, rfl, ?_, ?_, ?_⟩
    · constructor
      · intro hnil
        have hpair : Define camelCaseToKebab throws h
            (some (.func fname ins [.ptr pname (.struct sname spkg fields promoted)]))
            = (.ok none, (Define camelCaseToKebab throws h
              (some (.func fname ins [.ptr pname (.struct sname spkg fields promoted)]))).2) := by
          rw [← hnil]
        obtain ⟨hall, hnd, hslots, _⟩ :=
          (Define_ok_iff camelCaseToKebab throws h fname ins pname sname spkg fields promoted
            hok _).1 hpair
        exact ⟨hall, hnd, hslots⟩
      · rintro ⟨hall, hnd, hslots⟩
        rw [(Define_ok_iff camelCaseToKebab throws h fname ins pname sname spkg fields promoted
          hok _).2 ⟨hall, hnd, hslots, rfl⟩]
    · intro hnil
      have hpair : Define camelCaseToKebab throws h
          (some (.func fname ins [.ptr pname (.struct sname spkg fields promoted)]))
          = (.ok none, (Define camelCaseToKebab throws h
            (some (.func fname ins [.ptr pname (.struct sname spkg fields promoted)]))).2) := by
        rw [← hnil]
      obtain ⟨_, _, _, hstate⟩ :=
        (Define_ok_iff camelCaseToKebab throws h fname ins pname sname spkg fields promoted
          hok _).1 hpair
      rw [hstate]
      exact ⟨rfl, rfl⟩
    · intro hnot
      rcases Define_nil_or_panic camelCaseToKebab throws h fname ins pname sname spkg fields
        promoted hok with hnil | hp
      · exact absurd hnil hnot
      · exact hp

/-- C10 (amended) on a fresh page: the constructor of `Foo` gets the validation
error and the page is untouched; the constructor of `MyElement` is registered
and `Define` returns nil; with two blank fields, and with a field named
`connectedCallback`, the validator returns nil and `Define` does not. -/
theorem Define_result_witness :
    Define specCamelCaseToKebab browserThrows freshHost (constructorOf fooType)
      = (.ok (some .nameNotTwoWords), freshHost)
    ∧ (Define specCamelCaseToKebab browserThrows freshHost
        (constructorOf myElementType)).1 = .ok none
    ∧ testConstructorFunction specCamelCaseToKebab (constructorOf blankFieldsType) = .ok none
    ∧ (Define specCamelCaseToKebab browserThrows freshHost
        (constructorOf blankFieldsType)).1 = .error (.jsError "TypeError")
    ∧ testConstructorFunction specCamelCaseToKebab (constructorOf slotFieldType) = .ok none
    ∧ (Define specCamelCaseToKebab browserThrows freshHost
        (constructorOf slotFieldType)).1 = .error .jsAccessorError := by
  refine ⟨(Define_result specCamelCaseToKebab browserThrows freshHost).1
      (constructorOf fooType) .nameNotTwoWords rfl, ?_, rfl, rfl, rfl, rfl⟩
  obtain ⟨fname, ins, pname, sname, spkg, fields, promoted, hshape, hiff, _, _⟩ :=
    (Define_result specCamelCaseToKebab browserThrows freshHost).2
      (constructorOf myElementType) rfl
  simp only [constructorOf, myElementType, componentType, Option.some.injEq, RType.func.injEq,
    List.cons.injEq, RType.ptr.injEq, RType.struct.injEq, and_true, true_and] at hshape
  obtain ⟨_, _, _, rfl, _, rfl, _⟩ := hshape
  exact hiff.2 ⟨by decide, by decide, by decide⟩
/-! ## The synthesized accessors and the attribute callback -/

/-- C7: `AttributeChangedCallback(a, o, v, n)` writes the string `v`, as it is,
into the component field named `Title(kebabToCamelCase(a))`, changes no other
field and no attribute, and its result does not depend on `o` and `n`; the
prototype slot hands the host's four string arguments over unchanged; for
("label", "a", "b", "") the field `Label` reads "b" afterwards. -/
theorem AttributeChangedCallback_effect (kebabToCamelCase Title : String → String)
    (e : Instance) (a o v n : String) :
    (Element.AttributeChangedCallback kebabToCamelCase Title e a o v n).fields
        (Title (kebabToCamelCase a)) = some (.string v)
    ∧ (∀ name, name ≠ Title (kebabToCamelCase a) →
        (Element.AttributeChangedCallback kebabToCamelCase Title e a o v n).fields name
          = e.fields name)
    ∧ (Element.AttributeChangedCallback kebabToCamelCase Title e a o v n).attributes
        = e.attributes
    ∧ (∀ o2 n2, Element.AttributeChangedCallback kebabToCamelCase Title e a o2 v n2
        = Element.AttributeChangedCallback kebabToCamelCase Title e a o v n)
    ∧ attributeChangedCallback kebabToCamelCase Title e (.string a) (.string o) (.string v)
        (.string n) = Element.AttributeChangedCallback kebabToCamelCase Title e a o v n
    ∧ (Element.AttributeChangedCallback specKebabToCamelCase asciiTitle e
        "label" "a" "b" "").fields "Label" = some (.string "b") := by
  refine ⟨by simp [Element.AttributeChangedCallback], ?_, rfl, fun _ _ => rfl, rfl, ?_⟩
  · intro name hname
    simp [Element.AttributeChangedCallback, Function.update, hname]
  · have ht : asciiTitle (specKebabToCamelCase "label") = "Label" := by decide
    simp [Element.AttributeChangedCallback, ht]

/-! ## The shadow tree scan -/

theorem scanElement_attributes_some (element : Node) (m : String → Option Node)
    (attrs : List (String × String)) :
    scanElement.attributes element (some m) attrs
      = .ok (some (((attrs.filter (fun attr => attr.1 = "id")).map (fun attr => attr.2)).foldl
          (fun acc id => Function.update acc id (some element)) m)) := by
  induction attrs generalizing m with
  | nil => simp [scanElement.attributes]
  | cons a rest ih =>
    by_cases ha : a.1 = "id"
    · simp [scanElement.attributes, ha, ChildrenMap.assign, ih, List.filter_cons]
    · simp [scanElement.attributes, ha, ih, List.filter_cons]

theorem scanElement_own_attributes (m : String → Option Node) (ref : Nat)
    (attrs : Option (List (String × String))) (children : List Node) :
    (match attrs with
      | none => Except.ok (some m)
      | some l => scanElement.attributes (.mk ref attrs children) (some m) l)
      = (.ok (some (indexNode m (.mk ref attrs children))) : Except Panic ChildrenMap) := by
  cases attrs with
  | none => simp [indexNode, Node.ids, Node.attributes]
  | some l => simp [indexNode, Node.ids, Node.attributes, scanElement_attributes_some]

mutual
theorem scanElement_eq (m : String → Option Node) :
    (root : Node) →
      Element.scanElement (some m) root = .ok (some ((Node.preorder root).foldl indexNode m))
  | .mk ref attrs children => by
    have hstep : Element.scanElement (some m) (.mk ref attrs children)
        = (match (match attrs with
            | none => Except.ok (some m)
            | some l => scanElement.attributes (.mk ref attrs children) (some m) l) with
          | .error p => .error p
          | .ok m1 => Element.scanElement.children m1 children) := rfl
    rw [hstep, scanElement_own_attributes]
    simp only
    rw [scanElement_children_eq (indexNode m (.mk ref attrs children)) children]
    simp [Node.preorder]
theorem scanElement_children_eq (m : String → Option Node) :
    (nodes : List Node) →
      Element.scanElement.children (some m) nodes
        = .ok (some ((Node.preorderAll nodes).foldl indexNode m))
  | [] => by
    have hnil : Element.scanElement.children (some m) [] = .ok (some m) := rfl
    simp [hnil, Node.preorderAll]
  | child :: rest => by
    have hstep : Element.scanElement.children (some m) (child :: rest)
        = (match Element.scanElement (some m) child with
          | .error p => .error p
          | .ok m1 => Element.scanElement.children m1 rest) := rfl
    rw [hstep, scanElement_eq m child]
    simp only
    rw [scanElement_children_eq _ rest]
    simp [Node.preorderAll, List.foldl_append]
end

mutual
theorem preorder_length : (root : Node) → (Node.preorder root).length = Node.size root
  | .mk _ _ children => by
    simp [Node.preorder, Node.size, preorderAll_length children, Nat.add_comm]
theorem preorderAll_length :
    (nodes : List Node) → (Node.preorderAll nodes).length = Node.sizeAll nodes
  | [] => by simp [Node.preorderAll, Node.sizeAll]
  | child :: rest => by
    simp [Node.preorderAll, Node.sizeAll, preorder_length child, preorderAll_length rest]
end

theorem preorderAll_append (xs ys : List Node) :
    Node.preorderAll (xs ++ ys) = Node.preorderAll xs ++ Node.preorderAll ys := by
  induction xs with
  | nil => simp [Node.preorderAll]
  | cons x rest ih => simp [Node.preorderAll, ih]

theorem indexNode_of_noId (m : String → Option Node) (ref : Nat)
    (attrs : Option (List (String × String))) (children : List Node)
    (h : noIdAttribute attrs = true) :
    indexNode m (.mk ref attrs children) = m := by
  cases attrs with
  | none => simp [indexNode, Node.ids, Node.attributes]
  | some l =>
    have hf : l.filter (fun attr => attr.1 = "id") = [] := by
      rw [List.filter_eq_nil_iff]
      intro a ha
      have := List.all_eq_true.1 h a ha
      simpa using this
    simp [indexNode, Node.ids, Node.attributes, hf]

mutual
theorem foldl_indexNode_of_hasNoId (m : String → Option Node) :
    (root : Node) → Node.hasNoId root = true → (Node.preorder root).foldl indexNode m = m
  | .mk ref attrs children => by
    intro h
    simp only [Node.hasNoId, Bool.and_eq_true] at h
    simp only [Node.preorder, List.foldl_cons]
    rw [indexNode_of_noId m ref attrs children h.1]
    exact foldl_indexNode_of_hasNoIdAll m children h.2
theorem foldl_indexNode_of_hasNoIdAll (m : String → Option Node) :
    (nodes : List Node) → Node.hasNoIdAll nodes = true →
      (Node.preorderAll nodes).foldl indexNode m = m
  | [] => by intro _; simp [Node.preorderAll]
  | child :: rest => by
    intro h
    simp only [Node.hasNoIdAll, Bool.and_eq_true] at h
    simp only [Node.preorderAll, List.foldl_append]
    rw [foldl_indexNode_of_hasNoId m child h.1]
    exact foldl_indexNode_of_hasNoIdAll m rest h.2
end

theorem foldl_update_of_mem (n : Node) (ids : List String) (m : String → Option Node)
    (k : String) (hk : k ∈ ids) :
    ids.foldl (fun acc id => Function.update acc id (some n)) m k = some n := by
  induction ids generalizing m with
  | nil => cases hk
  | cons i rest ih =>
    rw [List.foldl_cons]
    by_cases hr : k ∈ rest
    · exact ih _ hr
    · have hki : k = i := by
        rcases List.mem_cons.1 hk with h | h
        · exact h
        · exact absurd h hr
      subst hki
      have hkeep : ∀ (l : List String) (m2 : String → Option Node), k ∉ l →
          l.foldl (fun acc id => Function.update acc id (some n)) m2 k = m2 k := by
        intro l
        induction l with
        | nil => intro m2 _; rfl
        | cons j l2 ih2 =>
          intro m2 hnot
          rw [List.foldl_cons, ih2 _ (fun hc => hnot (List.mem_cons_of_mem _ hc))]
          have hne : k ≠ j := fun hc => hnot (hc ▸ List.mem_cons_self _ _)
          simp [Function.update, hne]
      rw [hkeep rest _ hr]
      simp

/-- C8: on every tree and every children map, `scanElement` returns without a
panic, and the map it leaves is the initial map updated, along the pre-order
listing of the root and its descendants (each node once), with `id-value -> node`
for the `id` attributes of the visited node, a later write replacing an earlier
one; a node without attribute collection or without `id` adds nothing and its
children are scanned; on the empty map and a tree in which one node at depth 2
carries `id="header"` and no other node carries an id, the result is the map
with the single entry `header -> that node`. -/
theorem scanElement_spec :
    (∀ (m : String → Option Node) (root : Node),
      Element.scanElement (some m) root = .ok (some (scanSpec m root)))
    ∧ (∀ root : Node, (Node.preorder root).length = Node.size root)
    ∧ (∀ (m : String → Option Node) (n : Node) (k : String), k ∈ n.ids →
        indexNode m n k = some n)
    ∧ (∀ (m : String → Option Node) (ref : Nat) (attrs : Option (List (String × String)))
        (children : List Node), noIdAttribute attrs = true →
        Element.scanElement (some m) (.mk ref attrs children)
          = Element.scanElement.children (some m) children)
    ∧ (∀ (r0 r1 : Nat) (a0 a1 : Option (List (String × String)))
        (before1 after1 before2 after2 : List Node) (target : Node),
        noIdAttribute a0 = true → noIdAttribute a1 = true →
        Node.hasNoIdAll before1 = true → Node.hasNoIdAll after1 = true →
        Node.hasNoIdAll before2 = true → Node.hasNoIdAll after2 = true →
        target.ids = ["header"] → Node.hasNoIdAll target.children = true →
        Element.scanElement (some (fun _ => none))
            (.mk r0 a0 (before1 ++ .mk r1 a1 (before2 ++ target :: after2) :: after1))
          = .ok (some (Function.update (fun _ => none) "header" (some target)))) := by
  refine ⟨fun m root => scanElement_eq m root, preorder_length, ?_, ?_, ?_⟩
  · intro m n k hk
    exact foldl_update_of_mem n n.ids m k hk
  · intro m ref attrs children hno
    rw [scanElement_eq, scanElement_children_eq]
    simp only [Node.preorder, List.foldl_cons]
    rw [indexNode_of_noId m ref attrs children hno]
  · intro r0 r1 a0 a1 before1 after1 before2 after2 target h0 h1 hb1 ha1 hb2 ha2 hid hkids
    rw [scanElement_eq]
    obtain ⟨rt, at_, kids⟩ := target
    have htarget : ∀ m : String → Option Node,
        indexNode m (.mk rt at_ kids) = Function.update m "header" (some (.mk rt at_ kids)) := by
      intro m
      simp [indexNode, hid]
    simp only [Node.preorder, Node.preorderAll, preorderAll_append, List.foldl_cons,
      List.foldl_append]
    rw [indexNode_of_noId _ r0 a0 _ h0, foldl_indexNode_of_hasNoIdAll _ before1 hb1,
      indexNode_of_noId _ r1 a1 _ h1, foldl_indexNode_of_hasNoIdAll _ before2 hb2,
      htarget, foldl_indexNode_of_hasNoIdAll _ kids hkids,
      foldl_indexNode_of_hasNoIdAll _ after2 ha2, foldl_indexNode_of_hasNoIdAll _ after1 ha1]

/-- C8 on the sample tree: one node at depth 2 carries `id="header"`, its
siblings and all other nodes carry no id. -/
theorem scanElement_spec_witness :
    Element.scanElement (some (fun _ => none)) sampleTree
      = .ok (some (Function.update (fun _ => none) "header" (some headerNode))) :=
  scanElement_spec.2.2.2.2 0 1 none (some [("class", "a")]) [] [.mk 5 (some []) []]
    [.mk 2 (some []) []] [.mk 4 (some []) []] headerNode rfl rfl rfl rfl rfl rfl rfl rfl

end Golymer
